import Mathlib

/-!
Verification of the snmp2 BER codec and synchronous session core
(`src/pdu.rs`, `src/syncsession.rs`) against its natural-language
specification.

The encode buffer (`Buf`) is modelled as the list of its occupied tail
bytes (`data`), most recently prepended byte first, together with the
fixed capacity `BUFFER_SIZE`.  Rust operations that index out of bounds
(a `usize` underflow in a slice index) are modelled as `Except.error
Crash.indexOverflow`; operations that the source makes no-ops on
insufficient space (`scribble_bytes` closures returning 0) are modelled
as no-ops.  Machine integers are modelled as `Nat`/`Int` with explicit
`% 2 ^ w` where wrap-around matters.
-/

namespace Snmp

/-- Modelled from the spec: the crate-level constant `BUFFER_SIZE` is not
under `src/`; spec §3 sizes it as a power of two ≥ 1500, e.g. 4096. -/
def BUFFER_SIZE : Nat := 4096

/-- A Rust panic (slice-index out of bounds / `usize` underflow). -/
inductive Crash where
  | indexOverflow
deriving DecidableEq, Repr

instance {ε α : Type} [DecidableEq ε] [DecidableEq α] : DecidableEq (Except ε α) :=
  fun x y =>
    match x, y with
    | .ok a, .ok b =>
      if h : a = b then .isTrue (by rw [h]) else .isFalse (by simp [h])
    | .error a, .error b =>
      if h : a = b then .isTrue (by rw [h]) else .isFalse (by simp [h])
    | .ok _, .error _ => .isFalse (by simp)
    | .error _, .ok _ => .isFalse (by simp)

/-- The backward-growing encode buffer `pdu::Buf`.  `data` is the occupied
tail region of the underlying array, lowest occupied index first, so a
prepend is a list `cons`/append at the front.  `data.length` is the
source's `len` field; the source invariant `len ≤ BUFFER_SIZE` is enforced
by the operations themselves (overflow crashes or is a no-op, as in the
source). -/
structure Buf where
  data : List Nat
deriving DecidableEq, Repr

/-- The empty buffer (`Buf::default()`). -/
def Buf.default : Buf := ⟨[]⟩

/-- `Buf::push_chunk`: prepend raw bytes.  The source computes
`offset - chunk.len()` with `offset = BUFFER_SIZE - len`; that `usize`
subtraction underflows (a panic) whenever the chunk does not fit. -/
def Buf.push_chunk (b : Buf) (chunk : List Nat) : Except Crash Buf :=
  if b.data.length + chunk.length ≤ BUFFER_SIZE then
    .ok ⟨chunk ++ b.data⟩
  else
    .error .indexOverflow

/-- `Buf::push_byte`: prepend one byte.  The index
`BUFFER_SIZE - len - 1` underflows (a panic) when the buffer is full. -/
def Buf.push_byte (b : Buf) (byte : Nat) : Except Crash Buf :=
  if b.data.length < BUFFER_SIZE then
    .ok ⟨byte :: b.data⟩
  else
    .error .indexOverflow

/-- `Buf::reset`. -/
def Buf.reset (_b : Buf) : Buf := ⟨[]⟩

/-- One halving step per unit of fuel; with fuel `f` this computes the
bit length of any `x < 2 ^ f` (and is structural, hence kernel-reducible). -/
def bitLenAux : Nat → Nat → Nat
  | 0, _ => 0
  | fuel + 1, x => if x = 0 then 0 else bitLenAux fuel (x / 2) + 1

/-- Number of bits of a 64-bit value `x` (0 for 0). -/
def bitLen (x : Nat) : Nat := bitLenAux 64 x

/-- `u64::leading_zeros` / `i64::leading_zeros` on the 64-bit value `x`. -/
def leadingZeros64 (x : Nat) : Nat := 64 - bitLen x

/-- The `k` low-order bytes of `u`, big-endian (the tail of
`u.to_be_bytes()`). -/
def beBytes (u : Nat) : Nat → List Nat
  | 0 => []
  | k + 1 => (u / 256 ^ k % 256) :: beBytes u k

/-- Big-endian unsigned value of a byte list. -/
def valBE : List Nat → Nat
  | [] => 0
  | b :: bs => b * 256 ^ bs.length + valBE bs

/-- Two's-complement (signed, big-endian) value of a byte list: the first
byte's high bit is the sign bit. -/
def twosVal (bs : List Nat) : Int :=
  match bs with
  | [] => 0
  | b :: _ => if 128 ≤ b then (valBE bs : Int) - 2 ^ (8 * bs.length) else (valBE bs : Int)

/-- `Buf::push_length` as the emitted bytes: short form below 128, else
`0x80 | length_len` followed by the significant bytes of `len`
big-endian.  `length_len = 8 - len.leading_zeros() / 8` mirrors
`mem::size_of::<usize>() - num_leading_nulls` on a 64-bit target. -/
def lengthLen (len : Nat) : Nat := 8 - leadingZeros64 len / 8

/-- The bytes `Buf::push_length` prepends (when space allows). -/
def lenBytes (len : Nat) : List Nat :=
  if len < 128 then [len]
  else (lengthLen len ||| 128) :: beBytes len (lengthLen len)

/-- `Buf::push_length`: BER definite length.  The long form writes
through `scribble_bytes`, whose closure returns 0 (making the whole
operation a no-op) when the free head `o` satisfies
`o.len() <= length_len`; the short form goes through `push_byte`. -/
def Buf.push_length (b : Buf) (len : Nat) : Except Crash Buf :=
  if len < 128 then
    b.push_byte len
  else
    let ll := lengthLen len
    if BUFFER_SIZE - b.data.length ≤ ll then
      .ok b
    else
      .ok ⟨(ll ||| 128) :: beBytes len ll ++ b.data⟩

/-- The 64-bit two's-complement image of an `i64`. -/
def toU64 (n : Int) : Nat := (n % (2 ^ 64 : Int)).toNat

/-- The byte count `Buf::push_i64` chooses: drop leading null bytes
(`0x00` for non-negative, `0xff` for negative), keep at least one byte,
and keep one more when the first kept byte's sign bit disagrees with the
dropped nulls (`(first ^ null) > 127`). -/
def i64count (n : Int) : Nat :=
  let null : Nat := if n < 0 then 0xff else 0x00
  let numNullBytes : Nat :=
    if n < 0 then leadingZeros64 ((-n - 1).toNat) / 8 else leadingZeros64 n.toNat / 8
  let count1 : Nat := if 8 - numNullBytes = 0 then 1 else 8 - numNullBytes
  let firstByte : Nat := toU64 n / 256 ^ (count1 - 1) % 256
  if 127 < firstByte ^^^ null then count1 + 1 else count1

/-- The content bytes `Buf::push_i64` writes: the last `i64count n` bytes
of `n.to_be_bytes()`. -/
def i64content (n : Int) : List Nat := beBytes (toU64 n) (i64count n)

/-- The magnitude whose leading zero bytes `push_i64` counts: `n` itself
when non-negative, `!n = -n - 1` when negative. -/
def i64m (n : Int) : Nat := if n < 0 then (-n - 1).toNat else n.toNat

/-- The null byte `push_i64` strips: `0xff` for negative `n`, else `0x00`. -/
def i64null (n : Int) : Nat := if n < 0 then 0xff else 0x00

/-- The pre-sign-fix byte count of `push_i64`: eight minus the whole
leading null bytes, at least one. -/
def sigCount (m : Nat) : Nat :=
  if 8 - leadingZeros64 m / 8 = 0 then 1 else 8 - leadingZeros64 m / 8

/-- `Buf::push_i64`.  The source's explicit overflow check
(`wbuf.len() < count`) makes the write a no-op returning 0; the pointer
offset it computes beforehand is never dereferenced in that case, so the
release-mode behaviour is a clean no-op, which is what is modelled. -/
def Buf.push_i64 (b : Buf) (n : Int) : Except Crash (Buf × Nat) :=
  let count := i64count n
  if BUFFER_SIZE - b.data.length < count then
    .ok (b, 0)
  else
    .ok (⟨i64content n ++ b.data⟩, count)

/-- `Buf::push_integer`: content, then length, then tag `0x02`. -/
def Buf.push_integer (b : Buf) (n : Int) : Except Crash Buf := do
  let (b, len) ← b.push_i64 n
  let b ← b.push_length len
  b.push_byte 0x02

/-- `Buf::push_boolean`. -/
def Buf.push_boolean (b : Buf) (v : Bool) : Except Crash Buf := do
  let b ← b.push_byte (if v then 0x1 else 0x0)
  let b ← b.push_length 1
  b.push_byte 0x01

/-- `Buf::push_counter32` (tag `0x41`). -/
def Buf.push_counter32 (b : Buf) (n : Nat) : Except Crash Buf := do
  let (b, len) ← b.push_i64 (n : Int)
  let b ← b.push_length len
  b.push_byte 0x41

/-- `Buf::push_unsigned32` (tag `0x42`). -/
def Buf.push_unsigned32 (b : Buf) (n : Nat) : Except Crash Buf := do
  let (b, len) ← b.push_i64 (n : Int)
  let b ← b.push_length len
  b.push_byte 0x42

/-- `Buf::push_timeticks` (tag `0x43`). -/
def Buf.push_timeticks (b : Buf) (n : Nat) : Except Crash Buf := do
  let (b, len) ← b.push_i64 (n : Int)
  let b ← b.push_length len
  b.push_byte 0x43

/-- `Buf::push_counter64` (tag `0x46`); `n as i64` reinterprets the u64
two's-complement. -/
def Buf.push_counter64 (b : Buf) (n : Nat) : Except Crash Buf := do
  let i : Int := if n < 2 ^ 63 then (n : Int) else (n : Int) - 2 ^ 64
  let (b, len) ← b.push_i64 i
  let b ← b.push_length len
  b.push_byte 0x46

/-- `Buf::push_opaque` (tag `0x44`). -/
def Buf.push_opaque (b : Buf) (bytes : List Nat) : Except Crash Buf := do
  let b ← b.push_chunk bytes
  let b ← b.push_length bytes.length
  b.push_byte 0x44

/-- `Buf::push_endofmibview`. -/
def Buf.push_endofmibview (b : Buf) : Except Crash Buf :=
  b.push_chunk [0x82, 0]

/-- `Buf::push_nosuchobject`. -/
def Buf.push_nosuchobject (b : Buf) : Except Crash Buf :=
  b.push_chunk [0x80, 0]

/-- `Buf::push_nosuchinstance`. -/
def Buf.push_nosuchinstance (b : Buf) : Except Crash Buf :=
  b.push_chunk [0x81, 0]

/-- `Buf::push_ipaddress` (tag `0x40`). -/
def Buf.push_ipaddress (b : Buf) (ip : List Nat) : Except Crash Buf := do
  let b ← b.push_chunk ip
  let b ← b.push_length ip.length
  b.push_byte 0x40

/-- `Buf::push_null`. -/
def Buf.push_null (b : Buf) : Except Crash Buf :=
  b.push_chunk [0x05, 0]

/-- `Buf::push_object_identifier_raw` (tag `0x06` over raw content). -/
def Buf.push_object_identifier_raw (b : Buf) (input : List Nat) : Except Crash Buf := do
  let b ← b.push_chunk input
  let b ← b.push_length input.length
  b.push_byte 0x06

/-- `Buf::push_octet_string` (tag `0x04`). -/
def Buf.push_octet_string (b : Buf) (bytes : List Nat) : Except Crash Buf := do
  let b ← b.push_chunk bytes
  let b ← b.push_length bytes.length
  b.push_byte 0x04

/-- `Buf::push_constructed`: run the child writer, then prepend the BER
length of what it wrote and the identifier byte. -/
def Buf.push_constructed (b : Buf) (ident : Nat) (f : Buf → Except Crash Buf) :
    Except Crash Buf := do
  let before := b.data.length
  let b ← f b
  let written := b.data.length - before
  let b ← b.push_length written
  b.push_byte ident

/-- `Buf::push_sequence` (`0x30`). -/
def Buf.push_sequence (b : Buf) (f : Buf → Except Crash Buf) : Except Crash Buf :=
  b.push_constructed 0x30 f

/-- The bytes the inner loop of `push_object_identifier` emits for one
tail sub-identifier: base-128 groups, most significant first, continue
bit (`0x80`) set on every written byte except the final low group.  The
loop writes the cleared-bit low group first at the highest free index
and then prepends higher groups, which this accumulator mirrors. -/
def subidBytesAux : Nat → Nat → List Nat → List Nat
  | 0, _, acc => acc
  | fuel + 1, m, acc =>
    if m = 0 then acc else subidBytesAux fuel (m >>> 7) ((m &&& 0x7f ||| 0x80) :: acc)

/-- All bytes for one tail sub-identifier.  The source loop shifts a
`u32` right by 7 until it is zero; fuel 9 covers any value below
`2 ^ 63`, so on the source's domain this is exactly that loop. -/
def subidBytes (subid : Nat) : List Nat :=
  subidBytesAux 9 (subid >>> 7) [subid &&& 0x7f]

/-- The content bytes `push_object_identifier`'s scribble closure writes
when the head is valid and everything fits: `40·a + b` (truncated to a
byte, as the source's `as u8` cast) followed by the tail sub-ids. -/
def oidContent (input : List Nat) : List Nat :=
  match input with
  | head0 :: head1 :: tail => (head0 * 40 + head1) % 256 :: tail.flatMap subidBytes
  | _ => []

/-- `Buf::push_object_identifier`.  Fewer than two sub-ids: immediate
return, buffer untouched.  Otherwise the scribble closure starts at
`output.len() - 1`, a `usize` underflow (panic) when no byte is free; it
returns 0 (a no-op commit) when the head is out of range
(`head[0] >= 3 || head[1] >= 40`) or when it runs out of space
(`pos == 0` before all bytes are placed), and the byte count otherwise.
The length and tag bytes are pushed in every non-early-return case. -/
def Buf.push_object_identifier (b : Buf) (input : List Nat) : Except Crash Buf :=
  match input with
  | head0 :: head1 :: tail =>
    if BUFFER_SIZE - b.data.length = 0 then .error .indexOverflow
    else
      let content : List Nat :=
        if 3 ≤ head0 ∨ 40 ≤ head1 then []
        else if (oidContent (head0 :: head1 :: tail)).length ≤ BUFFER_SIZE - b.data.length
          then oidContent (head0 :: head1 :: tail)
        else []
      do
        let b ← Buf.push_length ⟨content ++ b.data⟩ content.length
        b.push_byte 0x06
  | _ => .ok b

/-- SNMP `Value` (§3 of the spec; the tags are those of
`build_inner`'s match arms). -/
inductive Value where
  | Boolean (b : Bool)
  | Null
  | Integer (i : Int)
  | OctetString (s : List Nat)
  | ObjectIdentifier (contentBytes : List Nat)
  | IpAddress (ip : List Nat)
  | Counter32 (n : Nat)
  | Unsigned32 (n : Nat)
  | Timeticks (n : Nat)
  | Opaque (s : List Nat)
  | Counter64 (n : Nat)
  | EndOfMibView
  | NoSuchObject
  | NoSuchInstance
deriving DecidableEq, Repr

/-- Modelled from the spec: `Version` lives in the crate root, not under
`src/`; wire numbers v1 = 0, v2c = 1, v3 = 3 (§6). -/
inductive Version where
  | V1
  | V2C
  | V3
deriving DecidableEq, Repr

/-- `version as i64`. -/
def Version.toInt : Version → Int
  | .V1 => 0
  | .V2C => 1
  | .V3 => 3

/-- Modelled from the spec: `MessageType` lives in the crate root, not
under `src/`; identifiers per the §6 tag table. -/
inductive MessageType where
  | Get
  | GetNext
  | Response
  | Set
  | TrapV1
  | GetBulk
  | InformRequest
  | TrapV2
  | Report
deriving DecidableEq, Repr

/-- `MessageType::from_ident` direction: the fixed identifier byte. -/
def MessageType.ident : MessageType → Nat
  | .Get => 0xA0
  | .GetNext => 0xA1
  | .Response => 0xA2
  | .Set => 0xA3
  | .TrapV1 => 0xA4
  | .GetBulk => 0xA5
  | .InformRequest => 0xA6
  | .TrapV2 => 0xA7
  | .Report => 0xA8

/-- Modelled from the spec: `MessageType::from_ident` (crate root, not
under `src/`), dispatching on the §6 identifier bytes. -/
def MessageType.from_ident (b : Nat) : Option MessageType :=
  if b = 0xA0 then some .Get
  else if b = 0xA1 then some .GetNext
  else if b = 0xA2 then some .Response
  else if b = 0xA3 then some .Set
  else if b = 0xA4 then some .TrapV1
  else if b = 0xA5 then some .GetBulk
  else if b = 0xA6 then some .InformRequest
  else if b = 0xA7 then some .TrapV2
  else if b = 0xA8 then some .Report
  else none

/-- Report classification outcomes (`ReportError`, §4.7 table; the type
itself lives in the crate root, the classifying code in
`Pdu::validate`). -/
inductive ReportError where
  | UnknownSecurityModel
  | InvalidMessage
  | BadVersion
  | UnsupportedSecurityLevel
  | NotInTimeWindow
  | UnknownUserName
  | UnknownEngineId
  | AuthenticationFailure
  | DecryptionError
  | BadContext
  | UnknownReport
  | NoVarbindOid
  | NoVarbind
deriving DecidableEq, Repr

/-- OS-level receive/send error classes (spec §7 Transport). -/
inductive IoKind where
  | TimedOut
  | ConnectionRefused
  | Other
deriving DecidableEq, Repr

/-- Modelled from the spec: the crate-level `Error` taxonomy (§7) is not
under `src/`; only the kinds the verified code paths use are listed. -/
inductive Error where
  | AsnEof
  | AsnInvalidLen
  | AsnWrongType
  | AsnUnexpectedType
  | AsnIntOverflow
  | ValueOutOfRange
  | UnsupportedVersion
  | RequestIdMismatch
  | CommunityMismatch
  | UnexpectedReport (kind : ReportError)
  | Send (kind : IoKind)
  | Receive (kind : IoKind)
  | AuthFailureSecurityNotProvided
deriving DecidableEq, Repr

/-- One varbind of `build_inner`'s value loop. -/
def Buf.push_value (b : Buf) (val : Value) : Except Crash Buf :=
  match val with
  | .Boolean v => b.push_boolean v
  | .Null => b.push_null
  | .Integer i => b.push_integer i
  | .OctetString ostr => b.push_octet_string ostr
  | .ObjectIdentifier objid => b.push_object_identifier_raw objid
  | .IpAddress ip => b.push_ipaddress ip
  | .Counter32 i => b.push_counter32 i
  | .Unsigned32 i => b.push_unsigned32 i
  | .Timeticks tt => b.push_timeticks tt
  | .Opaque bytes => b.push_opaque bytes
  | .Counter64 i => b.push_counter64 i
  | .EndOfMibView => b.push_endofmibview
  | .NoSuchObject => b.push_nosuchobject
  | .NoSuchInstance => b.push_nosuchinstance

/-- The varbind loop of `build_inner`: `values.iter().rev()`, each
varbind a SEQUENCE of value then OID (prepended, hence OID first on the
wire).  The source's `_ => return` arm is unreachable: every `Value`
variant is matched explicitly. -/
def pushVarbinds (values : List (List Nat × Value)) (b : Buf) : Except Crash Buf :=
  values.reverse.foldlM
    (fun b ov =>
      b.push_sequence (fun b => do
        let b ← b.push_value ov.2
        b.push_object_identifier_raw ov.1))
    b

/-- `pdu::build_inner`: the context-constructed PDU with request-id,
the two re-interpretable INTEGERs, and the varbind list, prepended in
reverse wire order. -/
def build_inner (req_id : Int) (ident : Nat) (values : List (List Nat × Value))
    (non_repeaters : Nat) (max_repetitions : Nat) (b : Buf) : Except Crash Buf :=
  b.push_constructed ident (fun b => do
    let b ← b.push_sequence (pushVarbinds values)
    let b ← b.push_integer (non_repeaters : Int)
    let b ← b.push_integer (max_repetitions : Int)
    b.push_integer req_id)

/-- `pdu::build` for v1/v2c (the v3 branch delegates to the external
`v3::build` collaborator and is out of scope).  Note the call site swaps
`non_repeaters`/`max_repetitions` relative to `build_inner`'s parameter
order, exactly as the source line
`build_inner(req_id, ident, values, max_repetitions, non_repeaters, buf)`
does.  The source returns `Ok(())` unconditionally (it has a
`clippy::unnecessary_wraps` allowance); only a panic interrupts it. -/
def build (version : Version) (community : List Nat) (ident : Nat) (req_id : Int)
    (values : List (List Nat × Value)) (non_repeaters : Nat) (max_repetitions : Nat)
    (buf : Buf) : Except Crash Buf :=
  let buf := buf.reset
  buf.push_sequence (fun buf => do
    let buf ← build_inner req_id ident values max_repetitions non_repeaters buf
    let buf ← buf.push_octet_string community
    buf.push_integer version.toInt)

/-- `pdu::build_get`. -/
def build_get (version : Version) (community : List Nat) (req_id : Int)
    (oid : List Nat) (buf : Buf) : Except Crash Buf :=
  build version community 0xA0 req_id [(oid, .Null)] 0 0 buf

/-- `pdu::build_getnext`. -/
def build_getnext (version : Version) (community : List Nat) (req_id : Int)
    (oid : List Nat) (buf : Buf) : Except Crash Buf :=
  build version community 0xA1 req_id [(oid, .Null)] 0 0 buf

/-- `pdu::build_getbulk`: pairs every OID with `Value::Null`. -/
def build_getbulk (version : Version) (community : List Nat) (req_id : Int)
    (oids : List (List Nat)) (non_repeaters : Nat) (max_repetitions : Nat)
    (buf : Buf) : Except Crash Buf :=
  build version community 0xA5 req_id (oids.map (fun oid => (oid, .Null)))
    non_repeaters max_repetitions buf

/-- `pdu::build_set`. -/
def build_set (version : Version) (community : List Nat) (req_id : Int)
    (values : List (List Nat × Value)) (buf : Buf) : Except Crash Buf :=
  build version community 0xA3 req_id values 0 0 buf

/-! ## Forward parser

`AsnReader` lives in `crate::asn1`, which is not under `src/`; its
primitives are modelled from spec §4.3 as a cursor (the remaining bytes)
with typed errors. -/

/-- Modelled from the spec: `asn1::AsnReader::read_byte` — consume one
byte (§4.3). -/
def read_byte (bs : List Nat) : Except Error (Nat × List Nat) :=
  match bs with
  | [] => .error .AsnEof
  | b :: rest => .ok (b, rest)

/-- Modelled from the spec: `asn1::AsnReader::read_length` — short or
long definite form, rejecting the indefinite form `0x80` (§4.3). -/
def read_length (bs : List Nat) : Except Error (Nat × List Nat) := do
  let (b, rest) ← read_byte bs
  if b < 128 then
    return (b, rest)
  else if b = 128 then
    throw .AsnInvalidLen
  else
    let k := b - 128
    if k ≤ rest.length then
      return (valBE (rest.take k), rest.drop k)
    else
      throw .AsnEof

/-- Modelled from the spec: `asn1::AsnReader::read_raw(expected_tag)` —
assert the tag, read the length, return the content slice and advance
past it (§4.3). -/
def read_raw (expected : Nat) (bs : List Nat) : Except Error (List Nat × List Nat) := do
  let (tag, rest) ← read_byte bs
  if tag ≠ expected then
    throw .AsnWrongType
  let (len, rest) ← read_length rest
  if len ≤ rest.length then
    return (rest.take len, rest.drop len)
  else
    throw .AsnEof

/-- Modelled from the spec: `asn1::AsnReader::read_asn_integer` — signed
big-endian two's-complement content of an INTEGER TLV, rejecting
contents longer than 8 bytes (§4.3). -/
def read_asn_integer (bs : List Nat) : Except Error (Int × List Nat) := do
  let (content, rest) ← read_raw 0x02 bs
  if content.length = 0 then
    throw .AsnInvalidLen
  else if 8 < content.length then
    throw .AsnIntOverflow
  else
    return (twosVal content, rest)

/-- Modelled from the spec: `asn1::AsnReader::read_asn_octetstring` (§4.3). -/
def read_asn_octetstring (bs : List Nat) : Except Error (List Nat × List Nat) :=
  read_raw 0x04 bs

/-- Modelled from the spec: `asn1::AsnReader::read_asn_objectidentifier`
— the borrowed content bytes of an OBJECT IDENTIFIER TLV (§4.3, §9
zero-copy). -/
def read_asn_objectidentifier (bs : List Nat) : Except Error (List Nat × List Nat) :=
  read_raw 0x06 bs

/-- Modelled from the spec: `asn1::AsnReader::read_snmp_ipaddress` — an
IpAddress TLV (`0x40`) with exactly four content bytes (§4.3, §3). -/
def read_snmp_ipaddress (bs : List Nat) : Except Error (List Nat × List Nat) := do
  let (content, rest) ← read_raw 0x40 bs
  if content.length = 4 then
    return (content, rest)
  else
    throw .AsnInvalidLen

/-- Modelled from the spec: `asn1::AsnReader::read_snmp_timeticks` — a
Timeticks TLV (`0x43`) carrying a `u32` (§4.3, §3). -/
def read_snmp_timeticks (bs : List Nat) : Except Error (Nat × List Nat) := do
  let (content, rest) ← read_raw 0x43 bs
  if content.length = 0 ∨ 8 < content.length then
    throw .AsnInvalidLen
  let v := twosVal content
  if 0 ≤ v ∧ v < 2 ^ 32 then
    return (v.toNat, rest)
  else
    throw .ValueOutOfRange

/-- Modelled from the spec: `asn1::AsnReader::peek_byte` — non-advancing
look-ahead (§4.3). -/
def peek_byte (bs : List Nat) : Except Error Nat :=
  match bs with
  | [] => .error .AsnEof
  | b :: _ => .ok b

/-- Modelled from the spec: `crate::Varbinds` (not under `src/`) is a
lazy zero-copy cursor over the varbind-list content bytes (§4.4); the
decoded `Pdu` stores exactly that cursor. -/
structure Varbinds where
  inner : List Nat
deriving DecidableEq, Repr

/-- `Varbinds::from_bytes`. -/
def Varbinds.from_bytes (bytes : List Nat) : Varbinds := ⟨bytes⟩

/-- Decode the base-128 groups after the first OID content byte.  `cur`
is the value of the partially read group, `inGroup` whether a
continuation byte was seen without its final byte yet. -/
def oidGroups : List Nat → Nat → Bool → Option (List Nat)
  | [], _, false => some []
  | [], _, true => none
  | b :: bs, cur, _ =>
    let v := cur * 128 + b % 128
    if b < 128 then (oidGroups bs 0 false).map (v :: ·)
    else oidGroups bs v true

/-- Modelled from the spec: sub-identifier view of raw OID content
bytes, as the external `Oid::iter` exposes it — the first byte splits as
`40·a + b`, the rest are base-128 groups (§3, §4.1). -/
def oidSubids (content : List Nat) : Option (List Nat) :=
  match content with
  | [] => none
  | fb :: rest =>
    let head : List Nat :=
      if fb < 40 then [0, fb] else if fb < 80 then [1, fb - 40] else [2, fb - 80]
    (oidGroups rest 0 false).map (head ++ ·)

/-- Values as the varbind iterator yields them (§4.4 tag dispatch).
Only the OID matters to `validate`; the value decoding is kept to the
tag dispatch table. -/
def readValue (bs : List Nat) : Option (Value × List Nat) := do
  let (tag, _) ← (read_byte bs).toOption
  let (content, rest) ← (read_raw tag bs).toOption
  let v : Option Value :=
    if tag = 0x01 then some (.Boolean (content ≠ [0]))
    else if tag = 0x02 then
      if content.length = 0 ∨ 8 < content.length then none else some (.Integer (twosVal content))
    else if tag = 0x04 then some (.OctetString content)
    else if tag = 0x05 then some .Null
    else if tag = 0x06 then some (.ObjectIdentifier content)
    else if tag = 0x40 then if content.length = 4 then some (.IpAddress content) else none
    else if tag = 0x41 then some (.Counter32 (valBE content))
    else if tag = 0x42 then some (.Unsigned32 (valBE content))
    else if tag = 0x43 then some (.Timeticks (valBE content))
    else if tag = 0x44 then some (.Opaque content)
    else if tag = 0x46 then some (.Counter64 (valBE content))
    else if tag = 0x80 then some .NoSuchObject
    else if tag = 0x81 then some .NoSuchInstance
    else if tag = 0x82 then some .EndOfMibView
    else none
  let v ← v
  return (v, rest)

/-- Modelled from the spec: one step of the `Varbinds` iterator (§4.4):
read an inner SEQUENCE, an OBJECT IDENTIFIER (kept as borrowed content
bytes) and one value TLV; any malformation ends the sequence. -/
def varbindsNext (vb : Varbinds) : Option ((List Nat × Value) × Varbinds) := do
  let (seq, rest) ← (read_raw 0x30 vb.inner).toOption
  let (oid, afterOid) ← (read_asn_objectidentifier seq).toOption
  let (v, _) ← readValue afterOid
  return ((oid, v), ⟨rest⟩)

/-- `V1TrapInfo` (src/pdu.rs). -/
structure V1TrapInfo where
  enterprise : List Nat
  agent_addr : List Nat
  generic_trap : Int
  specific_trap : Int
  timestamp : Nat
deriving DecidableEq, Repr

/-- The decoded `Pdu` view (src/pdu.rs).  `community` and the OID
content bytes borrow from the receive buffer in the source; here they
are the corresponding byte lists. -/
structure Pdu where
  version : Int
  community : List Nat
  message_type : MessageType
  req_id : Int
  error_status : Nat
  error_index : Nat
  varbinds : Varbinds
  v1_trap_info : Option V1TrapInfo
deriving DecidableEq, Repr

/-- `Pdu::parse_trap_v1`: only version 1 frames; reads enterprise OID,
agent IPv4, generic and specific INTEGERs, a Timeticks timestamp and the
varbind list, and populates `v1_trap_info` with `req_id`,
`error_status`, `error_index` all zero. -/
def parse_trap_v1 (rdr : List Nat) (version : Int) (community : List Nat) :
    Except Error Pdu := do
  if version ≠ Version.V1.toInt then
    throw .AsnWrongType
  let (oid, rdr) ← read_asn_objectidentifier rdr
  let (addr, rdr) ← read_snmp_ipaddress rdr
  let (generic_type, rdr) ← read_asn_integer rdr
  let (specific_code, rdr) ← read_asn_integer rdr
  let (timestamp, rdr) ← read_snmp_timeticks rdr
  let (varbind_bytes, _) ← read_raw 0x30 rdr
  return {
    version := version
    community := community
    message_type := .TrapV1
    req_id := 0
    error_status := 0
    error_index := 0
    varbinds := Varbinds.from_bytes varbind_bytes
    v1_trap_info := some {
      enterprise := oid
      agent_addr := addr
      generic_trap := generic_type
      specific_trap := specific_code
      timestamp := timestamp } }

/-- `Pdu::from_bytes_inner` for the non-v3 path (`Pdu::from_bytes`
passes no security; a version-3 frame then fails with
`AuthFailure(SecurityNotProvided)` before any `Pdu` is produced). -/
def from_bytes (bytes : List Nat) : Except Error Pdu := do
  let (seq, _) ← read_raw 0x30 bytes
  let (version, rdr) ← read_asn_integer seq
  if version ≠ Version.V1.toInt ∧ version ≠ Version.V2C.toInt ∧ version ≠ Version.V3.toInt then
    throw .UnsupportedVersion
  if version = Version.V3.toInt then
    throw .AuthFailureSecurityNotProvided
  let (community, rdr) ← read_asn_octetstring rdr
  let ident ← peek_byte rdr
  let message_type ← match MessageType.from_ident ident with
    | some t => pure t
    | none => throw .AsnWrongType
  let (response_pdu, _) ← read_raw ident rdr
  if message_type = .TrapV1 then
    parse_trap_v1 response_pdu version community
  else do
    let (req_id, response_pdu) ← read_asn_integer response_pdu
    if req_id < -(2 ^ 31) ∨ 2 ^ 31 - 1 < req_id then
      throw .ValueOutOfRange
    let (error_status, response_pdu) ← read_asn_integer response_pdu
    if error_status < 0 ∨ 2 ^ 31 - 1 < error_status then
      throw .ValueOutOfRange
    let (error_index, response_pdu) ← read_asn_integer response_pdu
    if error_index < 0 ∨ 2 ^ 31 - 1 < error_index then
      throw .ValueOutOfRange
    let (varbind_bytes, _) ← read_raw 0x30 response_pdu
    return {
      version := version
      community := community
      message_type := message_type
      req_id := req_id
      error_status := error_status.toNat
      error_index := error_index.toNat
      varbinds := Varbinds.from_bytes varbind_bytes
      v1_trap_info := none }

/-- `SNMP_MPD_STATS` = 1.3.6.1.6.3.11.2.1 (src/pdu.rs statics). -/
def SNMP_MPD_STATS : List Nat := [1, 3, 6, 1, 6, 3, 11, 2, 1]

/-- `SNMP_MPD_STATS_OID_LEN`: the sub-identifier count of the prefix. -/
def SNMP_MPD_STATS_OID_LEN : Nat := SNMP_MPD_STATS.length

/-- `USM_STATS` = 1.3.6.1.6.3.15.1.1 (src/pdu.rs statics). -/
def USM_STATS : List Nat := [1, 3, 6, 1, 6, 3, 15, 1, 1]

/-- `USM_STATS_OID_LEN`. -/
def USM_STATS_OID_LEN : Nat := USM_STATS.length

/-- `TARGET_STATS` = 1.3.6.1.6.3.12.1 (src/pdu.rs statics). -/
def TARGET_STATS : List Nat := [1, 3, 6, 1, 6, 3, 12, 1]

/-- `TARGET_STATS_OID_LEN`. -/
def TARGET_STATS_OID_LEN : Nat := TARGET_STATS.length

/-- Modelled from the spec: the external `Oid::starts_with` prefix match
at the sub-identifier level (§4.7 "matched against three prefixes"). -/
def oidStartsWith (content : List Nat) (pre : List Nat) : Bool :=
  match oidSubids content with
  | some subids => pre.isPrefixOf subids
  | none => false

/-- Modelled from the spec: `oid.iter().and_then(|it| it.nth(k))` — the
sub-identifier at index `k` (§4.7 "its sub-id immediately after the
prefix"). -/
def oidNth (content : List Nat) (k : Nat) : Option Nat :=
  (oidSubids content).bind (fun subids => subids.get? k)

/-- `Pdu::validate`: Report classification first (never success), then
type, request-id and community checks in that order. -/
def Pdu.validate (pdu : Pdu) (expected_type : MessageType) (expected_req_id : Int)
    (expected_community : List Nat) : Except Error Unit :=
  if pdu.message_type = .Report then
    match varbindsNext pdu.varbinds with
    | none => .error (.UnexpectedReport .NoVarbind)
    | some ((oid, _), _) =>
      if oidStartsWith oid SNMP_MPD_STATS then
        match oidNth oid SNMP_MPD_STATS_OID_LEN with
        | none => .error (.UnexpectedReport .NoVarbindOid)
        | some last =>
          .error (.UnexpectedReport
            (if last = 1 then .UnknownSecurityModel
             else if last = 2 then .InvalidMessage
             else if last = 3 then .BadVersion
             else .UnknownReport))
      else if oidStartsWith oid USM_STATS then
        match oidNth oid USM_STATS_OID_LEN with
        | none => .error (.UnexpectedReport .NoVarbindOid)
        | some last =>
          .error (.UnexpectedReport
            (if last = 1 then .UnsupportedSecurityLevel
             else if last = 2 then .NotInTimeWindow
             else if last = 3 then .UnknownUserName
             else if last = 4 then .UnknownEngineId
             else if last = 5 then .AuthenticationFailure
             else if last = 6 then .DecryptionError
             else .UnknownReport))
      else if oidStartsWith oid TARGET_STATS then
        match oidNth oid TARGET_STATS_OID_LEN with
        | none => .error (.UnexpectedReport .NoVarbindOid)
        | some last =>
          .error (.UnexpectedReport
            (if last = 4 then .BadContext
             else if last = 5 then .BadContext
             else .UnknownReport))
      else .error (.UnexpectedReport .UnknownReport)
  else if pdu.message_type ≠ expected_type then .error .AsnWrongType
  else if pdu.req_id ≠ expected_req_id then .error .RequestIdMismatch
  else if pdu.community ≠ expected_community then .error .CommunityMismatch
  else .ok ()

/-! ## Synchronous session (src/syncsession.rs)

The UDP socket is abstracted by a `RecvOutcome`: the blocking
`socket.recv` either times out or yields one datagram.  `socket.send` is
taken as succeeding (a send failure surfaces as `Send(kind)` before any
of the behaviour the claims are about).  `prepare()` is a no-op without
the v3 feature.  A Rust panic during the build aborts the process, hence
the outer `Except Crash`. -/

/-- A wrapping `i32` increment (`Wrapping<i32> + Wrapping(1)`), on the
representative range `[-2^31, 2^31)`. -/
def wrapInc (x : Int) : Int := (x + 1 + 2 ^ 31) % 2 ^ 32 - 2 ^ 31

/-- What `socket.recv` produced. -/
inductive RecvOutcome where
  | timedOut
  | datagram (bytes : List Nat)
deriving DecidableEq, Repr

/-- `SyncSession` state: the request-id counter wraps as an `i32`;
`send_pdu` is the session's encode buffer. -/
structure SyncSession where
  version : Version
  community : List Nat
  req_id : Int
  send_pdu : Buf
deriving DecidableEq, Repr

/-- One synchronous operation call with its arguments (the four public
methods share one skeleton in the source). -/
inductive OpCall where
  | get (oid : List Nat)
  | getnext (oid : List Nat)
  | getbulk (oids : List (List Nat)) (non_repeaters : Nat) (max_repetitions : Nat)
  | set (values : List (List Nat × Value))
deriving DecidableEq, Repr

/-- The build call each method makes with `req_id = self.req_id.0`. -/
def buildFor (s : SyncSession) (c : OpCall) : Except Crash Buf :=
  match c with
  | .get oid => build_get s.version s.community s.req_id oid s.send_pdu
  | .getnext oid => build_getnext s.version s.community s.req_id oid s.send_pdu
  | .getbulk oids nr mr => build_getbulk s.version s.community s.req_id oids nr mr s.send_pdu
  | .set values => build_set s.version s.community s.req_id values s.send_pdu

/-- The shared tail of `get`/`getnext`/`getbulk`/`set`: send, receive
(`?` aborts on `Receive(TimedOut)` before the counter increment), decode
(`?` likewise), then `req_id += 1`, then validate against the id used
for the request. -/
def afterBuild (s : SyncSession) (used_req_id : Int) (recv : RecvOutcome) :
    SyncSession × Except Error Pdu :=
  match recv with
  | .timedOut => (s, .error (.Receive .TimedOut))
  | .datagram bytes =>
    match from_bytes bytes with
    | .error e => (s, .error e)
    | .ok resp =>
      let s := { s with req_id := wrapInc s.req_id }
      match resp.validate .Response used_req_id s.community with
      | .error e => (s, .error e)
      | .ok _ => (s, .ok resp)

/-- One synchronous operation (`SyncSession::{get, getnext, getbulk,
set}`): build into `send_pdu` with the current `req_id`, then the shared
send/receive/validate tail. -/
def SyncSession.perform (s : SyncSession) (c : OpCall) (recv : RecvOutcome) :
    Except Crash (SyncSession × Except Error Pdu) := do
  let req_id := s.req_id
  let buf ← buildFor s c
  return afterBuild { s with send_pdu := buf } req_id recv

/-- Projection: the operation's returned value, absent on a crash. -/
def opResult (r : Except Crash (SyncSession × Except Error Pdu)) :
    Option (Except Error Pdu) :=
  (r.toOption).map Prod.snd

/-- Projection: the request id the NEXT operation on the session would
send (its post-state counter), absent on a crash. -/
def opNextReqId (r : Except Crash (SyncSession × Except Error Pdu)) : Option Int :=
  (r.toOption).map (fun p => p.1.req_id)

/-! ## Spec-side byte shapes

Pure descriptions of the bytes the writers emit, used to state the
theorems; each is compared against the corresponding `Buf` operation. -/

/-- A complete TLV: tag, BER length of the content, content. -/
def tlv (tag : Nat) (content : List Nat) : List Nat :=
  tag :: lenBytes content.length ++ content

/-- The INTEGER TLV `push_integer` emits. -/
def intTLV (n : Int) : List Nat := tlv 0x02 (i64content n)

/-- The NULL TLV. -/
def nullTLV : List Nat := tlv 0x05 []

/-- The OBJECT IDENTIFIER TLV over raw content bytes. -/
def oidRawTLV (s : List Nat) : List Nat := tlv 0x06 s

/-- The OCTET STRING TLV. -/
def octetTLV (s : List Nat) : List Nat := tlv 0x04 s

/-- One GET-BULK varbind: SEQUENCE of OID and NULL. -/
def vbNullBytes (oid : List Nat) : List Nat := tlv 0x30 (oidRawTLV oid ++ nullTLV)

/-- The varbind-list bytes for a GET-BULK. -/
def varbindListBytes (oids : List (List Nat)) : List Nat :=
  oids.flatMap vbNullBytes

/-- The whole datagram `build_getbulk` produces: version INTEGER,
community OCTET STRING, then the GET-BULK PDU whose body is request-id,
non-repeaters, max-repetitions, varbind list — in that wire order. -/
def getbulkBytes (version : Version) (community : List Nat) (req_id : Int)
    (oids : List (List Nat)) (non_repeaters : Nat) (max_repetitions : Nat) : List Nat :=
  tlv 0x30
    (intTLV version.toInt ++ octetTLV community ++
      tlv 0xA5
        (intTLV req_id ++ intTLV (non_repeaters : Int) ++ intTLV (max_repetitions : Int) ++
          tlv 0x30 (varbindListBytes oids)))

/-- Big-endian base-128 value of a byte list, ignoring continue bits. -/
def base128Val : List Nat → Nat
  | [] => 0
  | b :: bs => b % 128 * 128 ^ bs.length + base128Val bs

/-! ## Concrete inputs for witnesses and counterexamples -/

/-- The community `"public"`. -/
def exComm : List Nat := [0x70, 0x75, 0x62, 0x6c, 0x69, 0x63]

/-- BER content bytes of the OID 1.3.6.1.2.1.1.1.0 (sysDescr.0). -/
def exOid : List Nat := [0x2b, 6, 1, 2, 1, 1, 1, 0]

/-- A v2c session about to send request id 7. -/
def exSession : SyncSession :=
  { version := .V2C, community := exComm, req_id := 7, send_pdu := Buf.default }

/-- An encoded SNMPv1 trap frame: version 0, empty community, enterprise
1.3, agent 192.168.0.1, generic 0, specific 0, timestamp 0, no varbinds. -/
def exTrapFrame : List Nat :=
  [0x30, 0x1b, 0x02, 0x01, 0x00, 0x04, 0x00, 0xa4, 0x14, 0x06, 0x01, 0x2b,
   0x40, 0x04, 0xc0, 0xa8, 0x00, 0x01, 0x02, 0x01, 0x00, 0x02, 0x01, 0x00,
   0x43, 0x01, 0x00, 0x30, 0x00]

/-- An encoded v2c GET-response frame: community `"public"`, request id
7, error-status 0, error-index 0, one varbind (sysDescr.0, NULL). -/
def exRespFrame : List Nat :=
  [0x30, 0x26, 0x02, 0x01, 0x01, 0x04, 0x06] ++ exComm ++
    [0xa2, 0x19, 0x02, 0x01, 0x07, 0x02, 0x01, 0x00, 0x02, 0x01, 0x00,
     0x30, 0x0e, 0x30, 0x0c, 0x06, 0x08] ++ exOid ++ [0x05, 0x00]

/-- Varbind-list bytes whose first varbind is (1.3.6.1.6.3.15.1.1.2.0, NULL):
the usmStatsNotInTimeWindows report varbind. -/
def exUsmNotInTimeVb : List Nat :=
  [0x30, 14, 0x06, 10, 0x2b, 6, 1, 6, 3, 15, 1, 1, 2, 0, 0x05, 0]

/-- Varbind-list bytes whose first varbind is (1.3.6.1.6.3.15.1.1.5.0, NULL):
the usmStatsWrongDigests report varbind. -/
def exUsmWrongDigestVb : List Nat :=
  [0x30, 14, 0x06, 10, 0x2b, 6, 1, 6, 3, 15, 1, 1, 5, 0, 0x05, 0]

/-- A decoded Report PDU over the given varbind-list bytes. -/
def exReportPdu (vb : List Nat) : Pdu :=
  { version := 3, community := [], message_type := .Report, req_id := 0,
    error_status := 0, error_index := 0, varbinds := ⟨vb⟩, v1_trap_info := none }

/-- A decoded Response PDU with request id 9 and community `"public"`. -/
def exRespPdu : Pdu :=
  { version := 1, community := exComm, message_type := .Response, req_id := 9,
    error_status := 0, error_index := 0, varbinds := ⟨[]⟩, v1_trap_info := none }

/-- The decode of `exTrapFrame`. -/
def exTrapPdu : Pdu :=
  { version := 0, community := [], message_type := .TrapV1, req_id := 0,
    error_status := 0, error_index := 0, varbinds := ⟨[]⟩,
    v1_trap_info := some
      { enterprise := [0x2b], agent_addr := [192, 168, 0, 1],
        generic_trap := 0, specific_trap := 0, timestamp := 0 } }

/-- The decode of `exRespFrame`. -/
def exRespDecoded : Pdu :=
  { version := 1, community := exComm, message_type := .Response, req_id := 7,
    error_status := 0, error_index := 0,
    varbinds := ⟨[0x30, 0x0c, 0x06, 0x08, 0x2b, 6, 1, 2, 1, 1, 1, 0, 0x05, 0]⟩,
    v1_trap_info := none }

/-- The bytes `build_get` writes for `exSession` and `exOid`. -/
def exBuiltBuf : Buf :=
  ⟨[48, 38, 2, 1, 1, 4, 6, 112, 117, 98, 108, 105, 99, 160, 25, 2, 1, 7, 2, 1,
    0, 2, 1, 0, 48, 14, 48, 12, 6, 8, 43, 6, 1, 2, 1, 1, 1, 0, 5, 0]⟩

/-! ## Basic lemmas about the buffer writers -/

theorem beBytes_length (u k : Nat) : (beBytes u k).length = k := by
  induction k with
  | zero => rfl
  | succ k ih => simp [beBytes, ih]

theorem lenBytes_length (n : Nat) :
    (lenBytes n).length = if n < 128 then 1 else lengthLen n + 1 := by
  unfold lenBytes
  split <;> simp [beBytes_length]

theorem push_chunk_ok (b : Buf) (chunk : List Nat)
    (h : b.data.length + chunk.length ≤ BUFFER_SIZE) :
    b.push_chunk chunk = .ok ⟨chunk ++ b.data⟩ := by
  simp [Buf.push_chunk, h]

theorem push_byte_ok (b : Buf) (x : Nat) (h : b.data.length < BUFFER_SIZE) :
    b.push_byte x = .ok ⟨x :: b.data⟩ := by
  simp [Buf.push_byte, h]

theorem push_length_ok (b : Buf) (n : Nat)
    (h : b.data.length + (lenBytes n).length ≤ BUFFER_SIZE) :
    b.push_length n = .ok ⟨lenBytes n ++ b.data⟩ := by
  have hl := lenBytes_length n
  unfold Buf.push_length
  by_cases hn : n < 128
  · rw [if_pos hn]
    rw [push_byte_ok b n (by rw [hl, if_pos hn] at h; omega)]
    simp [lenBytes, hn]
  · rw [if_neg hn, if_neg (by rw [hl, if_neg hn] at h; omega)]
    simp [lenBytes, hn]

theorem i64count_le_nine (n : Int) : i64count n ≤ 9 := by
  unfold i64count
  dsimp only
  split_ifs <;> omega

theorem i64content_length (n : Int) : (i64content n).length = i64count n :=
  beBytes_length _ _

theorem push_i64_ok (b : Buf) (n : Int)
    (h : b.data.length + i64count n ≤ BUFFER_SIZE) :
    b.push_i64 n = .ok (⟨i64content n ++ b.data⟩, i64count n) := by
  unfold Buf.push_i64
  rw [if_neg (by omega)]

theorem intTLV_eq (n : Int) :
    intTLV n = 0x02 :: i64count n :: i64content n := by
  have h128 : i64count n < 128 := by have := i64count_le_nine n; omega
  unfold intTLV tlv lenBytes
  rw [i64content_length, if_pos h128]
  rfl

theorem intTLV_length (n : Int) : (intTLV n).length = i64count n + 2 := by
  rw [intTLV_eq]
  simp [i64content_length]

theorem push_integer_ok (b : Buf) (n : Int)
    (h : b.data.length + (intTLV n).length ≤ BUFFER_SIZE) :
    b.push_integer n = .ok ⟨intTLV n ++ b.data⟩ := by
  rw [intTLV_length] at h
  have h128 : i64count n < 128 := by have := i64count_le_nine n; omega
  unfold Buf.push_integer
  rw [push_i64_ok b n (by omega)]
  show Buf.push_length _ _ >>= _ = _
  rw [push_length_ok ⟨i64content n ++ b.data⟩ (i64count n)
    (by simp [lenBytes_length, i64content_length, h128]; omega)]
  show Buf.push_byte _ _ = _
  rw [push_byte_ok _ _ (by simp [lenBytes, i64content_length, h128]; omega)]
  rw [intTLV_eq]
  simp [lenBytes, h128]

theorem tlv_length (tag : Nat) (content : List Nat) :
    (tlv tag content).length = 1 + (lenBytes content.length).length + content.length := by
  simp [tlv]
  omega

theorem push_null_ok (b : Buf) (h : b.data.length + 2 ≤ BUFFER_SIZE) :
    b.push_null = .ok ⟨nullTLV ++ b.data⟩ := by
  unfold Buf.push_null
  rw [push_chunk_ok b _ (by simpa using h)]
  rfl

theorem push_octet_string_ok (b : Buf) (s : List Nat)
    (h : b.data.length + (octetTLV s).length ≤ BUFFER_SIZE) :
    b.push_octet_string s = .ok ⟨octetTLV s ++ b.data⟩ := by
  rw [octetTLV, tlv_length] at h
  unfold Buf.push_octet_string
  rw [push_chunk_ok b s (by omega)]
  show Buf.push_length _ _ >>= _ = _
  rw [push_length_ok ⟨s ++ b.data⟩ s.length (by simp; omega)]
  show Buf.push_byte _ _ = _
  rw [push_byte_ok _ _ (by simp; omega)]
  simp [octetTLV, tlv]

theorem push_object_identifier_raw_ok (b : Buf) (s : List Nat)
    (h : b.data.length + (oidRawTLV s).length ≤ BUFFER_SIZE) :
    b.push_object_identifier_raw s = .ok ⟨oidRawTLV s ++ b.data⟩ := by
  rw [oidRawTLV, tlv_length] at h
  unfold Buf.push_object_identifier_raw
  rw [push_chunk_ok b s (by omega)]
  show Buf.push_length _ _ >>= _ = _
  rw [push_length_ok ⟨s ++ b.data⟩ s.length (by simp; omega)]
  show Buf.push_byte _ _ = _
  rw [push_byte_ok _ _ (by simp; omega)]
  simp [oidRawTLV, tlv]

theorem push_constructed_ok (b : Buf) (ident : Nat) (f : Buf → Except Crash Buf)
    (c : List Nat) (hf : f b = .ok ⟨c ++ b.data⟩)
    (h : b.data.length + (tlv ident c).length ≤ BUFFER_SIZE) :
    b.push_constructed ident f = .ok ⟨tlv ident c ++ b.data⟩ := by
  rw [tlv_length] at h
  unfold Buf.push_constructed
  rw [hf]
  show Buf.push_length _ _ >>= _ = _
  have hw : (⟨c ++ b.data⟩ : Buf).data.length - b.data.length = c.length := by simp
  rw [hw, push_length_ok ⟨c ++ b.data⟩ c.length (by simp; omega)]
  show Buf.push_byte _ _ = _
  rw [push_byte_ok _ _ (by simp; omega)]
  simp [tlv]

theorem push_sequence_ok (b : Buf) (f : Buf → Except Crash Buf)
    (c : List Nat) (hf : f b = .ok ⟨c ++ b.data⟩)
    (h : b.data.length + (tlv 0x30 c).length ≤ BUFFER_SIZE) :
    b.push_sequence f = .ok ⟨tlv 0x30 c ++ b.data⟩ :=
  push_constructed_ok b 0x30 f c hf h

theorem push_constructed_err (b : Buf) (ident : Nat) (f : Buf → Except Crash Buf)
    (e : Crash) (hf : f b = .error e) : b.push_constructed ident f = .error e := by
  unfold Buf.push_constructed
  rw [hf]
  rfl

/-! ## Bit-length and byte-decomposition lemmas -/

theorem bitLenAux_zero (fuel : Nat) : bitLenAux fuel 0 = 0 := by
  cases fuel <;> simp [bitLenAux]

theorem bitLenAux_bounds (fuel : Nat) : ∀ x, x < 2 ^ fuel → x ≠ 0 →
    1 ≤ bitLenAux fuel x ∧ bitLenAux fuel x ≤ fuel ∧
    2 ^ (bitLenAux fuel x - 1) ≤ x ∧ x < 2 ^ bitLenAux fuel x := by
  induction fuel with
  | zero => intro x hx hnx; simp at hx; omega
  | succ f ih =>
    intro x hx hnx
    have hps : (2 : Nat) ^ (f + 1) = 2 * 2 ^ f := by ring
    simp only [bitLenAux, if_neg hnx]
    by_cases h2 : x / 2 = 0
    · have hx1 : x = 1 := by omega
      subst hx1
      simp [bitLenAux_zero]
    · have hh : x / 2 < 2 ^ f := by omega
      obtain ⟨ih1, ih2, ih3, ih4⟩ := ih (x / 2) hh h2
      set bl := bitLenAux f (x / 2) with hbl
      have hp1 : (2 : Nat) ^ bl = 2 * 2 ^ (bl - 1) := by
        rw [← pow_succ']
        congr 1
        omega
      have hp2 : (2 : Nat) ^ (bl + 1) = 2 * 2 ^ bl := by ring
      have hdm := Nat.div_add_mod x 2
      have hx2 : x % 2 < 2 := Nat.mod_lt _ (by norm_num)
      refine ⟨by omega, by omega, ?_, ?_⟩
      · simp only [Nat.add_sub_cancel]
        omega
      · omega

theorem bitLen_bounds (x : Nat) (h64 : x < 2 ^ 64) (hnx : x ≠ 0) :
    1 ≤ bitLen x ∧ bitLen x ≤ 64 ∧ 2 ^ (bitLen x - 1) ≤ x ∧ x < 2 ^ bitLen x :=
  bitLenAux_bounds 64 x h64 hnx

theorem valBE_beBytes (u k : Nat) : valBE (beBytes u k) = u % 256 ^ k := by
  induction k with
  | zero => simp [beBytes, valBE, Nat.mod_one]
  | succ k ih =>
    have hm : u % (256 ^ k * 256) = u % 256 ^ k + 256 ^ k * (u / 256 ^ k % 256) :=
      Nat.mod_mul
    simp only [beBytes, valBE, beBytes_length, ih, pow_succ, hm]
    ring

theorem lor_eq_add_128 (k : Nat) (h : k ≤ 8) : k ||| 128 = 128 + k := by
  interval_cases k <;> rfl

/-- For `128 ≤ n < 2 ^ 64`, `lengthLen n` is the significant-byte count
`⌈bitLen n / 8⌉` and brackets `n`. -/
theorem lengthLen_spec (n : Nat) (h64 : n < 2 ^ 64) (h128 : 128 ≤ n) :
    lengthLen n = (bitLen n + 7) / 8
    ∧ 1 ≤ lengthLen n ∧ lengthLen n ≤ 8
    ∧ 256 ^ (lengthLen n - 1) ≤ n ∧ n < 256 ^ lengthLen n := by
  obtain ⟨hb1, hb2, hb3, hb4⟩ := bitLen_bounds n h64 (by omega)
  set bl := bitLen n with hbl
  have hbl8 : 8 ≤ bl := by
    by_contra hc
    have : (2 : Nat) ^ bl ≤ 2 ^ 7 := Nat.pow_le_pow_right (by norm_num) (by omega)
    simp at this
    omega
  have hk : lengthLen n = (bl + 7) / 8 := by
    unfold lengthLen leadingZeros64
    omega
  set k := lengthLen n with hkk
  have hk1 : 1 ≤ k := by omega
  have hk8 : k ≤ 8 := by omega
  refine ⟨hk, hk1, hk8, ?_, ?_⟩
  · calc 256 ^ (k - 1) = 2 ^ (8 * (k - 1)) := by
          rw [pow_mul]
          norm_num
    _ ≤ 2 ^ (bl - 1) := Nat.pow_le_pow_right (by norm_num) (by omega)
    _ ≤ n := hb3
  · calc n < 2 ^ bl := hb4
    _ ≤ 2 ^ (8 * k) := Nat.pow_le_pow_right (by norm_num) (by omega)
    _ = 256 ^ k := by
          rw [pow_mul]
          norm_num

/-- Filling the whole buffer with the octet-string content succeeds, the
length write degrades to a no-op, and the tag write panics. -/
theorem push_octet_string_full (payload : List Nat)
    (hlen : payload.length = BUFFER_SIZE) :
    (⟨[]⟩ : Buf).push_octet_string payload = .error .indexOverflow := by
  unfold Buf.push_octet_string
  rw [push_chunk_ok ⟨[]⟩ payload (by simp [hlen])]
  show Buf.push_length _ _ >>= _ = _
  unfold Buf.push_length
  rw [if_neg (by rw [hlen]; unfold BUFFER_SIZE; omega),
    if_pos (by simp [hlen])]
  show Buf.push_byte _ _ = _
  unfold Buf.push_byte
  rw [if_neg (by simp [hlen])]

/-! ## Base-128 sub-identifier lemmas -/

theorem and127 (m : Nat) : m &&& 127 = m % 128 := by
  have h := Nat.and_pow_two_sub_one_eq_mod m 7
  norm_num at h
  exact h

theorem shift7 (m : Nat) : m >>> 7 = m / 128 := by
  rw [Nat.shiftRight_eq_div_pow]

theorem lor128_of_lt (x : Nat) (h : x < 128) : x ||| 128 = x + 128 := by
  have h2 : (2 : Nat) ^ 7 * 1 + x = 2 ^ 7 * 1 ||| x := Nat.mul_add_lt_is_or h 1
  simp at h2
  rw [Nat.lor_comm]
  omega

theorem subidBytesAux_append (fuel : Nat) :
    ∀ m acc, subidBytesAux fuel m acc = subidBytesAux fuel m [] ++ acc := by
  induction fuel with
  | zero => intro m acc; simp [subidBytesAux]
  | succ f ih =>
    intro m acc
    by_cases hm : m = 0
    · simp [subidBytesAux, hm]
    · simp only [subidBytesAux, if_neg hm]
      rw [ih _ ((m &&& 127 ||| 128) :: acc), ih _ [m &&& 127 ||| 128]]
      simp

theorem base128Val_append_last (l : List Nat) (x : Nat) :
    base128Val (l ++ [x]) = base128Val l * 128 + x % 128 := by
  induction l with
  | nil => simp [base128Val]
  | cons b bs ih =>
    simp only [List.cons_append, base128Val, List.append_eq]
    rw [ih, List.length_append]
    simp only [List.length_cons, List.length_nil]
    ring

theorem subidCore_val (fuel : Nat) :
    ∀ m, m < 2 ^ (7 * fuel) → base128Val (subidBytesAux fuel m []) = m := by
  induction fuel with
  | zero =>
    intro m hm
    simp at hm
    simp [hm, subidBytesAux, base128Val]
  | succ f ih =>
    intro m hm
    by_cases hm0 : m = 0
    · simp [subidBytesAux, hm0, base128Val]
    · simp only [subidBytesAux, if_neg hm0]
      rw [subidBytesAux_append, base128Val_append_last]
      have hpow : (2 : Nat) ^ (7 * (f + 1)) = 2 ^ (7 * f) * 128 := by
        rw [Nat.mul_succ, pow_add]
        norm_num
      have hdiv : m >>> 7 < 2 ^ (7 * f) := by
        rw [shift7]
        rw [hpow] at hm
        exact Nat.div_lt_of_lt_mul (by omega)
      rw [ih _ hdiv, shift7, and127]
      have hx : m % 128 < 128 := Nat.mod_lt _ (by norm_num)
      rw [lor128_of_lt _ hx]
      have := Nat.div_add_mod m 128
      omega

theorem subidCore_mem (fuel : Nat) :
    ∀ m x, x ∈ subidBytesAux fuel m [] → 128 ≤ x ∧ x < 256 := by
  induction fuel with
  | zero => intro m x hx; simp [subidBytesAux] at hx
  | succ f ih =>
    intro m x hx
    by_cases hm0 : m = 0
    · simp [subidBytesAux, hm0] at hx
    · simp only [subidBytesAux, if_neg hm0] at hx
      rw [subidBytesAux_append] at hx
      rcases List.mem_append.mp hx with h | h
      · exact ih _ x h
      · simp at h
        have hlt : m &&& 127 < 128 := by rw [and127]; exact Nat.mod_lt _ (by norm_num)
        rw [h, lor128_of_lt _ hlt]
        omega

theorem subidBytes_decomp (s : Nat) :
    subidBytes s = subidBytesAux 9 (s / 128) [] ++ [s % 128] := by
  unfold subidBytes
  rw [subidBytesAux_append, shift7, and127]

theorem subidBytes_val (s : Nat) (h : s < 2 ^ 63) :
    base128Val (subidBytes s) = s := by
  rw [subidBytes_decomp, base128Val_append_last]
  have h63 : (2 : Nat) ^ 63 = 2 ^ 56 * 128 := by norm_num
  have hdiv : s / 128 < 2 ^ (7 * 9) := by
    have : s / 128 < 2 ^ 56 := Nat.div_lt_of_lt_mul (by omega)
    calc s / 128 < 2 ^ 56 := this
    _ ≤ 2 ^ (7 * 9) := Nat.pow_le_pow_right (by norm_num) (by norm_num)
  rw [subidCore_val 9 _ hdiv, Nat.mod_mod_of_dvd _ (by norm_num)]
  have := Nat.div_add_mod s 128
  omega

/-! ## Claim theorems -/

/-- C10: for every input of fewer than two sub-identifiers,
`push_object_identifier` returns without modifying the buffer at all and
signals no error. -/
theorem claim_C10_short_oid_input_is_noop (b : Buf) (input : List Nat)
    (h : input.length < 2) : b.push_object_identifier input = .ok b := by
  match input, h with
  | [], _ => rfl
  | [x], _ => rfl
  | x :: y :: ys, h => simp at h; omega

theorem claim_C10_witness : Buf.default.push_object_identifier [1] = .ok Buf.default :=
  claim_C10_short_oid_input_is_noop Buf.default [1] (by decide)

/-- C5: for a decoded PDU that is not a Report, `validate` succeeds iff
type, request id and community all match; a type mismatch yields
`AsnWrongType`, then a request-id mismatch `RequestIdMismatch`, then a
community mismatch `CommunityMismatch`. -/
theorem claim_C5_validate_non_report (pdu : Pdu) (t : MessageType) (id : Int)
    (c : List Nat) (h : pdu.message_type ≠ .Report) :
    (pdu.validate t id c = .ok () ↔
      pdu.message_type = t ∧ pdu.req_id = id ∧ pdu.community = c)
    ∧ (pdu.message_type ≠ t → pdu.validate t id c = .error .AsnWrongType)
    ∧ (pdu.message_type = t → pdu.req_id ≠ id →
        pdu.validate t id c = .error .RequestIdMismatch)
    ∧ (pdu.message_type = t → pdu.req_id = id → pdu.community ≠ c →
        pdu.validate t id c = .error .CommunityMismatch) := by
  unfold Pdu.validate
  rw [if_neg h]
  by_cases h1 : pdu.message_type = t <;> by_cases h2 : pdu.req_id = id <;>
    by_cases h3 : pdu.community = c <;> simp [h1, h2, h3]

theorem claim_C5_witness :
    exRespPdu.validate .Response 9 exComm = .ok ()
    ∧ exRespPdu.validate .Get 9 exComm = .error .AsnWrongType
    ∧ exRespPdu.validate .Response 8 exComm = .error .RequestIdMismatch
    ∧ exRespPdu.validate .Response 9 [] = .error .CommunityMismatch :=
  ⟨(claim_C5_validate_non_report exRespPdu .Response 9 exComm (by decide)).1.mpr
      (by decide),
    (claim_C5_validate_non_report exRespPdu .Get 9 exComm (by decide)).2.1 (by decide),
    (claim_C5_validate_non_report exRespPdu .Response 8 exComm (by decide)).2.2.1
      (by decide) (by decide),
    (claim_C5_validate_non_report exRespPdu .Response 9 [] (by decide)).2.2.2
      (by decide) (by decide) (by decide)⟩

/-- C3 (amended): when a synchronous operation's receive times out, the
call returns `Receive(TimedOut)` and the session state is unchanged
except for the rebuilt send buffer — in particular `req_id` is NOT
incremented (the counter advances only after a successful receive and
decode), so the next operation reuses the timed-out request's id. -/
theorem claim_C3_timeout_keeps_req_id (s : SyncSession) (c : OpCall) (buf' : Buf)
    (hb : buildFor s c = .ok buf') :
    s.perform c .timedOut
      = .ok ({ s with send_pdu := buf' }, .error (.Receive .TimedOut)) := by
  unfold SyncSession.perform
  rw [hb]
  rfl

theorem claim_C3_witness :
    exSession.perform (.get exOid) .timedOut
      = .ok ({ exSession with send_pdu := exBuiltBuf }, .error (.Receive .TimedOut)) :=
  claim_C3_timeout_keeps_req_id exSession (.get exOid) exBuiltBuf (by decide)

/-- C3 counterexample: on the concrete v2c session about to send request
id 7, a timed-out get returns `Receive(TimedOut)` and the next operation
sends request id 7 again — equal to, not different from, the timed-out
request's id. -/
theorem claim_C3_counterexample :
    opResult (exSession.perform (.get exOid) .timedOut)
      = some (.error (.Receive .TimedOut))
    ∧ opNextReqId (exSession.perform (.get exOid) .timedOut) = some 7
    ∧ exSession.req_id = 7 := by
  decide

/-- C1: building a SET whose octet-string payload is `BUFFER_SIZE` bytes
does NOT return `EncodeOverflow`: the content fills the buffer, whereupon
`push_length` degrades to a silent no-op and `push_byte` panics (slice
index underflow).  `build` itself can only return `Ok` (its `Result` is
vacuous), so the claimed graceful-overflow behaviour does not exist. -/
theorem claim_C1_set_overflow_panics (community oid : List Nat) (req_id : Int)
    (buf : Buf) :
    build_set .V1 community req_id
        [(oid, .OctetString (List.replicate BUFFER_SIZE 0))] buf
      = .error .indexOverflow
    ∧ build_set .V2C community req_id
        [(oid, .OctetString (List.replicate BUFFER_SIZE 0))] buf
      = .error .indexOverflow := by
  have key : ∀ v : Version,
      build_set v community req_id
        [(oid, .OctetString (List.replicate BUFFER_SIZE 0))] buf
      = .error .indexOverflow := by
    intro v
    unfold build_set build Buf.reset
    apply push_constructed_err
    show (build_inner _ _ _ _ _ _ >>= _) = _
    have hinner : build_inner req_id 0xA3
        [(oid, .OctetString (List.replicate BUFFER_SIZE 0))] 0 0 ⟨[]⟩
        = .error .indexOverflow := by
      unfold build_inner
      apply push_constructed_err
      show (Buf.push_sequence _ _ >>= _) = _
      have hseq : (⟨[]⟩ : Buf).push_sequence
          (pushVarbinds [(oid, .OctetString (List.replicate BUFFER_SIZE 0))])
          = .error .indexOverflow := by
        apply push_constructed_err
        unfold pushVarbinds
        simp only [List.reverse_singleton, List.foldlM]
        show (Buf.push_sequence _ _ >>= _) = _
        have hvb : (⟨[]⟩ : Buf).push_sequence
            (fun b => do
              let b ← b.push_value (.OctetString (List.replicate BUFFER_SIZE 0))
              b.push_object_identifier_raw oid)
            = .error .indexOverflow := by
          apply push_constructed_err
          show (Buf.push_value _ _ >>= _) = _
          have hval : (⟨[]⟩ : Buf).push_value
              (.OctetString (List.replicate BUFFER_SIZE 0))
              = .error .indexOverflow :=
            push_octet_string_full _ (by simp)
          rw [hval]
          rfl
        rw [hvb]
        rfl
      rw [hseq]
      rfl
    rw [hinner]
    rfl
  exact ⟨key .V1, key .V2C⟩

/-- C8: `push_length n` prepends exactly one byte (equal to `n`) iff
`n < 128`; otherwise `1 + k` bytes where `k = lengthLen n` is the
significant-byte count `⌈bitLen n / 8⌉` of `n`, the first prepended byte
is `0x80 | k`, and the remaining `k` bytes are `n` big-endian. -/
theorem claim_C8_push_length_form (b : Buf) (n : Nat) (h64 : n < 2 ^ 64)
    (hsp : b.data.length + 9 ≤ BUFFER_SIZE) :
    b.push_length n = .ok ⟨lenBytes n ++ b.data⟩
    ∧ ((lenBytes n).length = 1 ↔ n < 128)
    ∧ (n < 128 → lenBytes n = [n])
    ∧ (128 ≤ n →
        (lenBytes n).length = 1 + lengthLen n
        ∧ lenBytes n = (128 + lengthLen n) :: beBytes n (lengthLen n)
        ∧ lengthLen n = (bitLen n + 7) / 8
        ∧ 1 ≤ lengthLen n ∧ lengthLen n ≤ 8
        ∧ 256 ^ (lengthLen n - 1) ≤ n ∧ n < 256 ^ lengthLen n
        ∧ (beBytes n (lengthLen n)).length = lengthLen n
        ∧ valBE (beBytes n (lengthLen n)) = n) := by
  have hll8 : lengthLen n ≤ 8 := by
    unfold lengthLen
    omega
  have hlen9 : (lenBytes n).length ≤ 9 := by
    rw [lenBytes_length]
    split <;> omega
  refine ⟨push_length_ok b n (by omega), ?_, ?_, ?_⟩
  · rw [lenBytes_length]
    by_cases hn : n < 128
    · simp [hn]
    · obtain ⟨_, hk1, _, _, _⟩ := lengthLen_spec n h64 (by omega)
      simp [hn]
      omega
  · intro hn
    simp [lenBytes, hn]
  · intro hn
    obtain ⟨hceil, hk1, hk8, hlo, hhi⟩ := lengthLen_spec n h64 hn
    have hnn : ¬ n < 128 := by omega
    have hval : valBE (beBytes n (lengthLen n)) = n := by
      rw [valBE_beBytes]
      exact Nat.mod_eq_of_lt hhi
    refine ⟨?_, ?_, hceil, hk1, hk8, hlo, hhi, beBytes_length _ _, hval⟩
    · rw [lenBytes_length, if_neg hnn]
      omega
    · rw [lenBytes, if_neg hnn, lor_eq_add_128 _ hll8]

theorem claim_C8_witness :
    Buf.default.push_length 300 = .ok ⟨lenBytes 300 ++ []⟩
    ∧ lenBytes 300 = [0x82, 1, 44]
    ∧ Buf.default.push_length 100 = .ok ⟨lenBytes 100 ++ []⟩
    ∧ lenBytes 100 = [100] :=
  ⟨(claim_C8_push_length_form Buf.default 300 (by norm_num) (by decide)).1,
    by decide,
    (claim_C8_push_length_form Buf.default 100 (by norm_num) (by decide)).1,
    (claim_C8_push_length_form Buf.default 100 (by norm_num) (by decide)).2.2.1
      (by norm_num)⟩

/-- C6 (amended): for a sub-identifier list of length ≥ 2 with first
sub-id in `{0,1,2}` and second `< 40` — the code requires `second < 40`
for EVERY first sub-id, including 2 — and sufficient buffer space,
`push_object_identifier` emits an OBJECT IDENTIFIER TLV whose content is
the byte `40·first + second` followed by each remaining sub-id in
base-128, most significant group first, continue bit set on all but the
last byte of each group. -/
theorem claim_C6_push_oid_encoding (b : Buf) (a c : Nat) (tail : List Nat)
    (ha : a < 3) (hc : c < 40) (htail : ∀ s ∈ tail, s < 2 ^ 32)
    (hsp : (oidContent (a :: c :: tail)).length + 10 ≤ BUFFER_SIZE - b.data.length) :
    b.push_object_identifier (a :: c :: tail)
      = .ok ⟨tlv 0x06 (oidContent (a :: c :: tail)) ++ b.data⟩
    ∧ oidContent (a :: c :: tail) = (40 * a + c) :: tail.flatMap subidBytes
    ∧ ∀ s ∈ tail,
        base128Val (subidBytes s) = s
        ∧ ∃ front, subidBytes s = front ++ [s % 128]
            ∧ s % 128 < 128 ∧ ∀ x ∈ front, 128 ≤ x ∧ x < 256 := by
  have hcontent : oidContent (a :: c :: tail) = (40 * a + c) :: tail.flatMap subidBytes := by
    show (a * 40 + c) % 256 :: tail.flatMap subidBytes = _
    rw [Nat.mod_eq_of_lt (by omega)]
    have hac : a * 40 + c = 40 * a + c := by ring
    rw [hac]
  refine ⟨?_, hcontent, ?_⟩
  · have hhead : ¬ (3 ≤ a ∨ 40 ≤ c) := by omega
    show (if BUFFER_SIZE - b.data.length = 0 then (.error .indexOverflow : Except Crash Buf)
      else
        let content : List Nat :=
          if 3 ≤ a ∨ 40 ≤ c then []
          else if (oidContent (a :: c :: tail)).length ≤ BUFFER_SIZE - b.data.length
            then oidContent (a :: c :: tail)
          else []
        do
          let b2 ← Buf.push_length ⟨content ++ b.data⟩ content.length
          b2.push_byte 0x06) = _
    rw [if_neg (by omega)]
    simp only [if_neg hhead, if_pos (show (oidContent (a :: c :: tail)).length ≤ BUFFER_SIZE - b.data.length by omega)]
    show Buf.push_length _ _ >>= _ = _
    have hll : (lenBytes (oidContent (a :: c :: tail)).length).length ≤ 9 := by
      rw [lenBytes_length]
      have : lengthLen (oidContent (a :: c :: tail)).length ≤ 8 := by
        unfold lengthLen
        omega
      split <;> omega
    rw [push_length_ok ⟨oidContent (a :: c :: tail) ++ b.data⟩ _
      (by simp only [List.length_append]; omega)]
    show Buf.push_byte _ _ = _
    rw [push_byte_ok _ _ (by simp only [List.length_append]; omega)]
    simp [tlv]
  · intro s hs
    have hs63 : s < 2 ^ 63 := by
      have := htail s hs
      have : (2 : Nat) ^ 32 ≤ 2 ^ 63 := Nat.pow_le_pow_right (by norm_num) (by norm_num)
      omega
    refine ⟨subidBytes_val s hs63, subidBytesAux 9 (s / 128) [], subidBytes_decomp s,
      Nat.mod_lt _ (by norm_num), fun x hx => subidCore_mem 9 (s / 128) x hx⟩

theorem claim_C6_witness :
    Buf.default.push_object_identifier [1, 3, 6, 1, 2, 1, 1, 1, 0]
      = .ok ⟨[0x06, 0x08, 0x2b, 0x06, 0x01, 0x02, 0x01, 0x01, 0x01, 0x00]⟩
    ∧ subidBytes 2680 = [0x94, 0x78] := by
  constructor
  · have h := (claim_C6_push_oid_encoding Buf.default 1 3 [6, 1, 2, 1, 1, 1, 0]
      (by norm_num) (by norm_num) (by decide) (by decide)).1
    rw [h]
    decide
  · decide

/-- `i64count` through the named pieces. -/
theorem i64count_eq (n : Int) : i64count n =
    if 127 < toU64 n / 256 ^ (sigCount (i64m n) - 1) % 256 ^^^ i64null n
    then sigCount (i64m n) + 1 else sigCount (i64m n) := by
  unfold i64count sigCount i64m i64null
  by_cases h : n < 0 <;> simp [h]

/-- The significant-byte count brackets its argument. -/
theorem sigCount_bounds (m : Nat) (h64 : m < 2 ^ 64) :
    1 ≤ sigCount m ∧ sigCount m ≤ 8 ∧ m < 256 ^ sigCount m
    ∧ (2 ≤ sigCount m → 256 ^ (sigCount m - 1) ≤ m) := by
  by_cases hm : m = 0
  · subst hm
    refine ⟨by decide, by decide, by decide, by decide⟩
  · obtain ⟨hb1, hb2, hb3, hb4⟩ := bitLen_bounds m h64 hm
    set bl := bitLen m with hbl
    have hs : sigCount m = (bl + 7) / 8 := by
      unfold sigCount leadingZeros64
      rw [← hbl]
      split <;> omega
    rw [hs]
    refine ⟨by omega, by omega, ?_, ?_⟩
    · calc m < 2 ^ bl := hb4
      _ ≤ 2 ^ (8 * ((bl + 7) / 8)) := Nat.pow_le_pow_right (by norm_num) (by omega)
      _ = 256 ^ ((bl + 7) / 8) := by
          rw [pow_mul]
          norm_num
    · intro h2
      calc 256 ^ ((bl + 7) / 8 - 1) = 2 ^ (8 * ((bl + 7) / 8 - 1)) := by
            rw [pow_mul]
            norm_num
      _ ≤ 2 ^ (bl - 1) := Nat.pow_le_pow_right (by norm_num) (by omega)
      _ ≤ m := hb3

set_option maxRecDepth 4096 in
theorem xor255 (b : Nat) (h : b < 256) : b ^^^ 255 = 255 - b := by
  have hall : ∀ x : Fin 256, ((x : Nat) ^^^ 255) = 255 - (x : Nat) := by decide
  exact hall ⟨b, h⟩

set_option maxHeartbeats 2000000 in
/-- `i64content` for non-negative `n`: non-empty, at most eight bytes,
two's-complement value `n`, no redundant leading byte. -/
theorem i64content_spec_pos (n : Int) (hhi : n < 2 ^ 63) (hpos : 0 ≤ n) :
    1 ≤ (i64content n).length ∧ (i64content n).length ≤ 8
    ∧ twosVal (i64content n) = n
    ∧ (∀ c0 c1 rest, i64content n = c0 :: c1 :: rest →
        ¬(c0 = 0 ∧ c1 < 128) ∧ ¬(c0 = 0xff ∧ 128 ≤ c1)) := by
  have hmc : (n.toNat : Int) = n := Int.toNat_of_nonneg hpos
  set m := n.toNat with hmdef
  have h64 : m < 2 ^ 64 := by omega
  have hU : toU64 n = m := by
    unfold toU64
    have he : n % (2 ^ 64 : Int) = n := by omega
    rw [he, hmdef]
  have him : i64m n = m := by
    unfold i64m
    rw [if_neg (by omega)]
  have hnull : i64null n = 0 := by
    unfold i64null
    rw [if_neg (by omega)]
  obtain ⟨hs1, hs8, hF1, hF2⟩ := sigCount_bounds m h64
  set s := sigCount m with hsdef
  have hcount : i64count n = if 127 < m / 256 ^ (s - 1) % 256 then s + 1 else s := by
    rw [i64count_eq, him, hU, hnull, ← hsdef]
    simp
  have hcontent : i64content n = beBytes m (i64count n) := by
    unfold i64content
    rw [hU]
  clear hmdef hU him hnull
  by_cases hfb : 127 < m / 256 ^ (s - 1) % 256
  · have hs7 : s ≤ 7 := by
      by_contra hs8x
      have hs8e : s = 8 := by omega
      rw [hs8e] at hfb
      have hd : m / 256 ^ 7 < 128 := by
        have h2 : (2 : Nat) ^ 63 = 128 * 256 ^ 7 := by norm_num
        omega
      have hm2 : m / 256 ^ 7 % 256 ≤ m / 256 ^ 7 := Nat.mod_le _ _
      omega
    have hc : i64count n = s + 1 := by rw [hcount, if_pos hfb]
    rw [hcontent, hc]
    clear hcontent hcount hsdef
    refine ⟨by simp [beBytes_length], by simp [beBytes_length, hs7], ?_, ?_⟩
    · interval_cases s <;>
        · norm_num at hfb hF1 hF2
          simp only [beBytes, twosVal, valBE, List.length_cons, List.length_nil]
          split_ifs with h1
          all_goals norm_num at h1 ⊢
          all_goals omega
    · interval_cases s <;>
        · norm_num at hfb hF1 hF2
          intro c0 c1 rest heq
          simp only [beBytes] at heq
          norm_num at heq
          try simp at heq
          all_goals constructor <;> omega
  · have hc : i64count n = s := by rw [hcount, if_neg hfb]
    rw [hcontent, hc]
    clear hcontent hcount hsdef
    refine ⟨by simp [beBytes_length, hs1], by simp [beBytes_length, hs8], ?_, ?_⟩
    · interval_cases s <;>
        · norm_num at hfb hF1 hF2
          simp only [beBytes, twosVal, valBE, List.length_cons, List.length_nil]
          split_ifs with h1
          all_goals norm_num at h1 ⊢
          all_goals omega
    · interval_cases s <;>
        · norm_num at hfb hF1 hF2
          intro c0 c1 rest heq
          simp only [beBytes] at heq
          norm_num at heq
          try simp at heq
          all_goals constructor <;> omega

set_option maxHeartbeats 2000000 in
/-- `i64content` for negative `n`: non-empty, at most eight bytes,
two's-complement value `n`, no redundant leading byte. -/
theorem i64content_spec_neg (n : Int) (hlo : -(2 ^ 63) ≤ n) (hneg : n < 0) :
    1 ≤ (i64content n).length ∧ (i64content n).length ≤ 8
    ∧ twosVal (i64content n) = n
    ∧ (∀ c0 c1 rest, i64content n = c0 :: c1 :: rest →
        ¬(c0 = 0 ∧ c1 < 128) ∧ ¬(c0 = 0xff ∧ 128 ≤ c1)) := by
  have hmc : ((-n - 1).toNat : Int) = -n - 1 := Int.toNat_of_nonneg (by omega)
  set m := (-n - 1).toNat with hmdef
  have h63 : m < 2 ^ 63 := by omega
  have h64 : m < 2 ^ 64 := by omega
  have hU : toU64 n = 2 ^ 64 - 1 - m := by
    unfold toU64
    have he : n % (2 ^ 64 : Int) = n + 2 ^ 64 := by omega
    rw [he]
    omega
  have him : i64m n = m := by
    unfold i64m
    rw [if_pos (by omega), hmdef]
  have hnull : i64null n = 255 := by
    unfold i64null
    rw [if_pos (by omega)]
  obtain ⟨hs1, hs8, hF1, hF2⟩ := sigCount_bounds m h64
  set s := sigCount m with hsdef
  have hxor : toU64 n / 256 ^ (s - 1) % 256 ^^^ 255
      = 255 - toU64 n / 256 ^ (s - 1) % 256 :=
    xor255 _ (Nat.mod_lt _ (by norm_num))
  have hcount : i64count n
      = if 127 < 255 - (2 ^ 64 - 1 - m) / 256 ^ (s - 1) % 256 then s + 1 else s := by
    rw [i64count_eq, him, hnull, ← hsdef, hxor, hU]
  have hcontent : i64content n = beBytes (2 ^ 64 - 1 - m) (i64count n) := by
    unfold i64content
    rw [hU]
  clear hxor hU him hnull hmdef
  by_cases hfb : 127 < 255 - (2 ^ 64 - 1 - m) / 256 ^ (s - 1) % 256
  · have hs7 : s ≤ 7 := by
      by_contra hs8x
      have hs8e : s = 8 := by omega
      rw [hs8e] at hfb
      norm_num at hfb
      omega
    have hc : i64count n = s + 1 := by rw [hcount, if_pos hfb]
    rw [hcontent, hc]
    clear hcontent hcount hsdef
    refine ⟨by simp [beBytes_length], by simp [beBytes_length, hs7], ?_, ?_⟩
    · interval_cases s <;>
        · norm_num at hfb hF1 hF2
          simp only [beBytes, twosVal, valBE, List.length_cons, List.length_nil]
          split_ifs with h1
          all_goals norm_num at h1 ⊢
          all_goals omega
    · interval_cases s <;>
        · norm_num at hfb hF1 hF2
          intro c0 c1 rest heq
          simp only [beBytes] at heq
          norm_num at heq
          try simp at heq
          all_goals constructor <;> omega
  · have hc : i64count n = s := by rw [hcount, if_neg hfb]
    rw [hcontent, hc]
    clear hcontent hcount hsdef
    refine ⟨by simp [beBytes_length, hs1], by simp [beBytes_length, hs8], ?_, ?_⟩
    · interval_cases s <;>
        · norm_num at hfb hF1 hF2
          simp only [beBytes, twosVal, valBE, List.length_cons, List.length_nil]
          split_ifs with h1
          all_goals norm_num at h1 ⊢
          all_goals omega
    · interval_cases s <;>
        · norm_num at hfb hF1 hF2
          intro c0 c1 rest heq
          simp only [beBytes] at heq
          norm_num at heq
          try simp at heq
          all_goals constructor <;> omega

/-- The content `push_i64` writes is non-empty, at most eight bytes,
decodes (big-endian two's-complement) back to `n`, and never starts with
a redundant `0x00` or `0xff` byte. -/
theorem i64content_spec (n : Int) (hlo : -(2 ^ 63) ≤ n) (hhi : n < 2 ^ 63) :
    1 ≤ (i64content n).length ∧ (i64content n).length ≤ 8
    ∧ twosVal (i64content n) = n
    ∧ (∀ c0 c1 rest, i64content n = c0 :: c1 :: rest →
        ¬(c0 = 0 ∧ c1 < 128) ∧ ¬(c0 = 0xff ∧ 128 ≤ c1)) := by
  rcases le_or_lt 0 n with hpos | hneg
  · exact i64content_spec_pos n hhi hpos
  · exact i64content_spec_neg n hlo hneg

theorem lenBytes_pos (n : Nat) : 1 ≤ (lenBytes n).length := by
  rw [lenBytes_length]
  split <;> omega

theorem nullTLV_eq : nullTLV = [0x05, 0x00] := rfl

/-- One GET-BULK varbind (OID with NULL value) pushed as the source's
per-value sequence closure. -/
theorem push_varbind_null_ok (b : Buf) (oid : List Nat)
    (h : b.data.length + (vbNullBytes oid).length ≤ BUFFER_SIZE) :
    b.push_sequence (fun b2 => do
      let b2 ← b2.push_value Value.Null
      b2.push_object_identifier_raw oid) = .ok ⟨vbNullBytes oid ++ b.data⟩ := by
  have hlen : (vbNullBytes oid).length
      = 1 + (lenBytes (oidRawTLV oid ++ nullTLV).length).length
        + (oidRawTLV oid ++ nullTLV).length := by
    rw [vbNullBytes, tlv_length]
  have hoidlen : (oidRawTLV oid).length
      = 1 + (lenBytes oid.length).length + oid.length := by
    rw [oidRawTLV, tlv_length]
  have hnl : (nullTLV).length = 2 := rfl
  apply push_sequence_ok b _ (oidRawTLV oid ++ nullTLV)
  · show (Buf.push_null b >>= _) = _
    rw [push_null_ok b (by
      rw [hlen, List.length_append] at h
      have := lenBytes_pos (oidRawTLV oid ++ nullTLV).length
      omega)]
    show Buf.push_object_identifier_raw _ _ = _
    rw [push_object_identifier_raw_ok ⟨nullTLV ++ b.data⟩ oid (by
      simp only [List.length_append]
      rw [hlen, List.length_append] at h
      have := lenBytes_pos (oidRawTLV oid ++ nullTLV).length
      omega)]
    simp
  · exact h

/-- Folding the reversed-order varbind loop over null-valued OIDs
prepends the forward-order varbind-list bytes. -/
theorem foldVb (l : List (List Nat)) : ∀ b : Buf,
    b.data.length + (varbindListBytes l.reverse).length ≤ BUFFER_SIZE →
    List.foldlM
      (fun b ov => Buf.push_sequence b (fun b2 => do
        let b2 ← Buf.push_value b2 ov.2
        Buf.push_object_identifier_raw b2 ov.1))
      b (l.map (fun oid => (oid, Value.Null)))
      = .ok ⟨varbindListBytes l.reverse ++ b.data⟩ := by
  induction l with
  | nil =>
    intro b _
    show pure b = Except.ok (⟨varbindListBytes [] ++ b.data⟩ : Buf)
    simp [varbindListBytes, pure, Except.pure]
  | cons o l' ih =>
    intro b h
    have hsplit : varbindListBytes ((o :: l').reverse)
        = varbindListBytes l'.reverse ++ vbNullBytes o := by
      simp [varbindListBytes, List.reverse_cons]
    rw [hsplit] at h ⊢
    simp only [List.length_append] at h
    simp only [List.map_cons, List.foldlM]
    rw [push_varbind_null_ok b o (by omega)]
    show List.foldlM _ _ _ = _
    rw [ih ⟨vbNullBytes o ++ b.data⟩ (by simp only [List.length_append]; omega)]
    simp

theorem pushVarbinds_nulls_ok (oids : List (List Nat)) (b : Buf)
    (h : b.data.length + (varbindListBytes oids).length ≤ BUFFER_SIZE) :
    pushVarbinds (oids.map (fun oid => (oid, Value.Null))) b
      = .ok ⟨varbindListBytes oids ++ b.data⟩ := by
  unfold pushVarbinds
  have hrev : (oids.map (fun oid => (oid, Value.Null))).reverse
      = oids.reverse.map (fun oid => (oid, Value.Null)) := by
    rw [List.map_reverse]
  rw [hrev]
  have := foldVb oids.reverse b (by rwa [List.reverse_reverse])
  rw [List.reverse_reverse] at this
  exact this

/-- `build_inner` over null varbinds emits, in wire order: request id,
then its `max_repetitions` parameter, then its `non_repeaters`
parameter, then the varbind list (the buffer grows backward, so the
pushes happen in the reverse order). -/
theorem build_inner_nulls_ok (req_id : Int) (ident : Nat) (oids : List (List Nat))
    (non_repeaters max_repetitions : Nat) (b : Buf)
    (h : b.data.length
        + (tlv ident (intTLV req_id ++ intTLV (max_repetitions : Int)
            ++ intTLV (non_repeaters : Int)
            ++ tlv 0x30 (varbindListBytes oids))).length ≤ BUFFER_SIZE) :
    build_inner req_id ident (oids.map (fun oid => (oid, Value.Null)))
        non_repeaters max_repetitions b
      = .ok ⟨tlv ident (intTLV req_id ++ intTLV (max_repetitions : Int)
          ++ intTLV (non_repeaters : Int) ++ tlv 0x30 (varbindListBytes oids)) ++ b.data⟩ := by
  have h' := h
  simp only [tlv_length, List.length_append] at h'
  unfold build_inner
  apply push_constructed_ok b ident _ _ _ h
  show (Buf.push_sequence _ _ >>= _) = _
  rw [push_sequence_ok b _ (varbindListBytes oids)
    (pushVarbinds_nulls_ok oids b (by omega))
    (by simp only [tlv_length]; omega)]
  show (Buf.push_integer _ _ >>= _) = _
  rw [push_integer_ok _ _ (by simp only [List.length_append, tlv_length]; omega)]
  show (Buf.push_integer _ _ >>= _) = _
  rw [push_integer_ok _ _ (by simp only [List.length_append, tlv_length]; omega)]
  show Buf.push_integer _ _ = _
  rw [push_integer_ok _ _ (by simp only [List.length_append, tlv_length]; omega)]
  simp

/-- C2: `build_getbulk` produces the outer SEQUENCE of version INTEGER,
community OCTET STRING, and a GetBulk PDU whose body carries, in wire
order, the request-id INTEGER, an INTEGER equal to `non_repeaters`, an
INTEGER equal to `max_repetitions`, and the varbind list (see
`getbulkBytes`): the swapped argument order at `build`'s call into
`build_inner` cancels against the backward buffer. -/
theorem claim_C2_getbulk_wire_order (version : Version) (community : List Nat)
    (req_id : Int) (oids : List (List Nat)) (non_repeaters max_repetitions : Nat)
    (buf : Buf) (_hv : version ≠ .V3)
    (hfit : (getbulkBytes version community req_id oids non_repeaters
        max_repetitions).length ≤ BUFFER_SIZE) :
    build_getbulk version community req_id oids non_repeaters max_repetitions buf
      = .ok ⟨getbulkBytes version community req_id oids non_repeaters max_repetitions⟩ := by
  have h' := hfit
  simp only [getbulkBytes, octetTLV, tlv_length, intTLV_length, List.length_append] at h'
  unfold build_getbulk build Buf.reset
  have houter : Buf.push_sequence ⟨[]⟩ (fun b => do
      let b ← build_inner req_id 0xA5 (oids.map (fun oid => (oid, Value.Null)))
        max_repetitions non_repeaters b
      let b ← b.push_octet_string community
      b.push_integer version.toInt)
      = .ok ⟨tlv 0x30 (intTLV version.toInt ++ octetTLV community ++
          tlv 0xA5 (intTLV req_id ++ intTLV (non_repeaters : Int)
            ++ intTLV (max_repetitions : Int)
            ++ tlv 0x30 (varbindListBytes oids))) ++ ([] : List Nat)⟩ := by
    apply push_sequence_ok ⟨[]⟩ _
      (intTLV version.toInt ++ octetTLV community ++
        tlv 0xA5 (intTLV req_id ++ intTLV (non_repeaters : Int)
          ++ intTLV (max_repetitions : Int) ++ tlv 0x30 (varbindListBytes oids)))
    · show (build_inner _ _ _ _ _ _ >>= _) = _
      rw [build_inner_nulls_ok req_id 0xA5 oids max_repetitions non_repeaters ⟨[]⟩
        (by simp only [tlv_length, List.length_append, intTLV_length,
          List.length_nil]; omega)]
      show (Buf.push_octet_string _ _ >>= _) = _
      rw [push_octet_string_ok _ community (by
        simp only [octetTLV, tlv_length, List.length_append, List.length_nil,
          intTLV_length]
        omega)]
      show Buf.push_integer _ _ = _
      rw [push_integer_ok _ _ (by
        simp only [octetTLV, tlv_length, List.length_append, List.length_nil,
          intTLV_length]
        omega)]
      simp
    · simp only [tlv_length, octetTLV, intTLV_length, List.length_append,
        List.length_nil]
      omega
  rw [houter]
  simp [getbulkBytes]

theorem claim_C2_witness :
    build_getbulk .V2C exComm 5 [exOid, exOid] 1 10 Buf.default
      = .ok ⟨getbulkBytes .V2C exComm 5 [exOid, exOid] 1 10⟩
    ∧ getbulkBytes .V2C exComm 5 [exOid, exOid] 1 10
      = [0x30, 52, 0x02, 1, 1, 0x04, 6] ++ exComm ++
        [0xA5, 39, 0x02, 1, 5, 0x02, 1, 1, 0x02, 1, 10,
         0x30, 28, 0x30, 12, 0x06, 8] ++ exOid ++ [0x05, 0, 0x30, 12, 0x06, 8] ++
        exOid ++ [0x05, 0] :=
  ⟨claim_C2_getbulk_wire_order .V2C exComm 5 [exOid, exOid] 1 10 Buf.default
      (by decide) (by decide),
    by decide⟩

theorem except_bind_ok {ε α β : Type} (x : Except ε α) (f : α → Except ε β) (b : β) :
    (x >>= f = Except.ok b) ↔ ∃ a, x = .ok a ∧ f a = .ok b := by
  cases x with
  | error e => simp [Bind.bind, Except.bind]
  | ok a => simp [Bind.bind, Except.bind]

theorem except_pure_ok {ε α : Type} (a b : α) :
    (pure a = Except.ok (ε := ε) b) ↔ a = b := by
  simp [pure, Except.pure]

theorem except_throw_ok {ε α : Type} (e : ε) (b : α) :
    (throw (m := Except ε) e = Except.ok b) ↔ False := by
  simp [throw, throwThe, MonadExceptOf.throw]

/-- Every successful `parse_trap_v1` is a `TrapV1` view with zero
request id, error status and error index, and a populated
`v1_trap_info`. -/
theorem parse_trap_v1_shape (rdr : List Nat) (version : Int) (community : List Nat)
    (pdu : Pdu) (hp : parse_trap_v1 rdr version community = .ok pdu) :
    pdu.message_type = .TrapV1 ∧ pdu.req_id = 0 ∧ pdu.error_status = 0
    ∧ pdu.error_index = 0 ∧ pdu.v1_trap_info.isSome = true := by
  unfold parse_trap_v1 at hp
  split at hp
  · simp only [except_bind_ok, except_throw_ok, false_and, exists_false] at hp
  · simp only [except_bind_ok, except_pure_ok, except_throw_ok] at hp
    obtain ⟨u1, -, d1, h1, d2, h2, d3, h3, d4, h4, d5, h5, d6, h6, hfinal⟩ := hp
    subst hfinal
    simp

theorem oidStartsWith_some (oid pre subids : List Nat)
    (hsub : oidSubids oid = some subids) :
    oidStartsWith oid pre = pre.isPrefixOf subids := by
  simp [oidStartsWith, hsub]

theorem oidNth_some (oid subids : List Nat) (k : Nat)
    (hsub : oidSubids oid = some subids) :
    oidNth oid k = subids.get? k := by
  simp [oidNth, hsub]

/-- An OID below the USM-stats subtree is not below the MPD-stats
subtree: the two prefixes differ at index 6 (15 vs 11). -/
theorem usm_prefix_not_mpd (subids : List Nat)
    (hpre : USM_STATS.isPrefixOf subids = true) :
    SNMP_MPD_STATS.isPrefixOf subids = false := by
  rw [List.isPrefixOf_iff_prefix] at hpre
  obtain ⟨t, ht⟩ := hpre
  by_contra hc
  rw [Bool.not_eq_false, List.isPrefixOf_iff_prefix] at hc
  obtain ⟨t2, ht2⟩ := hc
  rw [← ht] at ht2
  have h6 : (SNMP_MPD_STATS ++ t2)[6]? = (USM_STATS ++ t)[6]? := by rw [ht2]
  rw [List.getElem?_append_left (by simp [SNMP_MPD_STATS]),
    List.getElem?_append_left (by simp [USM_STATS])] at h6
  simp [SNMP_MPD_STATS, USM_STATS] at h6

/-- C4: when the decoded PDU is a Report, `validate` never succeeds; it
classifies the first varbind's OID — USM-stats prefix with next sub-id 2
gives `NotInTimeWindow`, with next sub-id 5 `AuthenticationFailure`; no
varbind gives `NoVarbind`; an OID under none of the three known prefixes
gives `UnknownReport`. -/
theorem claim_C4_validate_report_classifies (pdu : Pdu) (t : MessageType) (id : Int)
    (c : List Nat) (h : pdu.message_type = .Report) :
    (∀ u, pdu.validate t id c ≠ .ok u)
    ∧ (varbindsNext pdu.varbinds = none →
        pdu.validate t id c = .error (.UnexpectedReport .NoVarbind))
    ∧ (∀ oid v rest subids, varbindsNext pdu.varbinds = some ((oid, v), rest) →
        oidSubids oid = some subids →
        ((USM_STATS.isPrefixOf subids = true → subids.get? USM_STATS_OID_LEN = some 2 →
            pdu.validate t id c = .error (.UnexpectedReport .NotInTimeWindow))
        ∧ (USM_STATS.isPrefixOf subids = true → subids.get? USM_STATS_OID_LEN = some 5 →
            pdu.validate t id c = .error (.UnexpectedReport .AuthenticationFailure))
        ∧ (SNMP_MPD_STATS.isPrefixOf subids = false →
            USM_STATS.isPrefixOf subids = false →
            TARGET_STATS.isPrefixOf subids = false →
            pdu.validate t id c = .error (.UnexpectedReport .UnknownReport)))) := by
  refine ⟨?_, ?_, ?_⟩
  · intro u
    unfold Pdu.validate
    rw [if_pos h]
    rcases hvb : varbindsNext pdu.varbinds with _ | ⟨⟨oid, v⟩, rest⟩
    · simp
    · simp only
      split_ifs <;> first | (split <;> simp) | simp
  · intro hvb
    unfold Pdu.validate
    rw [if_pos h]
    simp [hvb]
  · intro oid v rest subids hvb hsub
    have hred : ∀ r : ReportError,
        (pdu.validate t id c = .error (.UnexpectedReport r)) ↔
        (((if SNMP_MPD_STATS.isPrefixOf subids = true then
            match subids.get? SNMP_MPD_STATS_OID_LEN with
            | none => Except.error (Error.UnexpectedReport .NoVarbindOid)
            | some last =>
              .error (.UnexpectedReport
                (if last = 1 then .UnknownSecurityModel
                 else if last = 2 then .InvalidMessage
                 else if last = 3 then .BadVersion
                 else .UnknownReport))
          else if USM_STATS.isPrefixOf subids = true then
            match subids.get? USM_STATS_OID_LEN with
            | none => Except.error (Error.UnexpectedReport .NoVarbindOid)
            | some last =>
              .error (.UnexpectedReport
                (if last = 1 then .UnsupportedSecurityLevel
                 else if last = 2 then .NotInTimeWindow
                 else if last = 3 then .UnknownUserName
                 else if last = 4 then .UnknownEngineId
                 else if last = 5 then .AuthenticationFailure
                 else if last = 6 then .DecryptionError
                 else .UnknownReport))
          else if TARGET_STATS.isPrefixOf subids = true then
            match subids.get? TARGET_STATS_OID_LEN with
            | none => Except.error (Error.UnexpectedReport .NoVarbindOid)
            | some last =>
              .error (.UnexpectedReport
                (if last = 4 then .BadContext
                 else if last = 5 then .BadContext
                 else .UnknownReport))
          else .error (.UnexpectedReport .UnknownReport)) : Except Error Unit)
          = Except.error (Error.UnexpectedReport r)) := by
      intro r
      unfold Pdu.validate
      rw [if_pos h]
      simp only [hvb, oidStartsWith_some oid _ subids hsub, oidNth_some oid subids _ hsub]
    refine ⟨?_, ?_, ?_⟩
    · intro hpre hnth
      rw [List.get?_eq_getElem?] at hnth
      rw [hred]
      rw [usm_prefix_not_mpd subids hpre]
      simp [hpre, hnth]
    · intro hpre hnth
      rw [List.get?_eq_getElem?] at hnth
      rw [hred]
      rw [usm_prefix_not_mpd subids hpre]
      simp [hpre, hnth]
    · intro h1 h2 h3
      rw [hred]
      simp [h1, h2, h3]

theorem claim_C4_witness :
    (exReportPdu exUsmNotInTimeVb).validate .Response 0 []
      = .error (.UnexpectedReport .NotInTimeWindow)
    ∧ (exReportPdu exUsmWrongDigestVb).validate .Response 0 []
      = .error (.UnexpectedReport .AuthenticationFailure) :=
  ⟨((claim_C4_validate_report_classifies (exReportPdu exUsmNotInTimeVb) .Response 0 []
      (by decide)).2.2 [0x2b, 6, 1, 6, 3, 15, 1, 1, 2, 0] .Null ⟨[]⟩
      [1, 3, 6, 1, 6, 3, 15, 1, 1, 2, 0] (by decide) (by decide)).1 (by decide) (by decide),
   ((claim_C4_validate_report_classifies (exReportPdu exUsmWrongDigestVb) .Response 0 []
      (by decide)).2.2 [0x2b, 6, 1, 6, 3, 15, 1, 1, 5, 0] .Null ⟨[]⟩
      [1, 3, 6, 1, 6, 3, 15, 1, 1, 5, 0] (by decide) (by decide)).2.1 (by decide) (by decide)⟩

/-- C6 counterexample: the claim exempts `first = 2` from the
`second < 40` constraint, but on input `[2, 100]` the code's head check
`head[0] >= 3 || head[1] >= 40` rejects the OID and emits an empty
OBJECT IDENTIFIER TLV `06 00` instead of content `40·2 + 100 = 180`. -/
theorem claim_C6_counterexample :
    Buf.default.push_object_identifier [2, 100] = .ok ⟨[0x06, 0x00]⟩
    ∧ Buf.default.push_object_identifier [2, 100] ≠ .ok ⟨[0x06, 0x01, 180]⟩ := by
  decide

/-- C9: every successfully decoded PDU of type `TrapV1` has
`req_id = 0`, `error_status = 0`, `error_index = 0` and a populated
`v1_trap_info`; every other successfully decoded PDU has `v1_trap_info`
absent. -/
theorem claim_C9_trap_decode_shape (bytes : List Nat) (pdu : Pdu)
    (hp : from_bytes bytes = .ok pdu) :
    (pdu.message_type = .TrapV1 →
      pdu.req_id = 0 ∧ pdu.error_status = 0 ∧ pdu.error_index = 0
      ∧ pdu.v1_trap_info.isSome = true)
    ∧ (pdu.message_type ≠ .TrapV1 → pdu.v1_trap_info = none) := by
  unfold from_bytes at hp
  simp only [except_bind_ok] at hp
  obtain ⟨d0, h0, d1, h1, hp⟩ := hp
  split at hp
  · simp only [except_bind_ok, except_throw_ok, false_and, exists_false] at hp
  · simp only [except_bind_ok] at hp
    obtain ⟨u1, -, hp⟩ := hp
    split at hp
    · simp only [except_bind_ok, except_throw_ok, false_and, exists_false] at hp
    · simp only [except_bind_ok] at hp
      obtain ⟨u2, -, d2, h2, ident, h3, hp⟩ := hp
      split at hp
      · next t hmatch =>
        simp only [except_bind_ok, except_pure_ok] at hp
        obtain ⟨y, hy, d3, h4, hp⟩ := hp
        subst hy
        split at hp
        · next hytrap =>
          have hsh := parse_trap_v1_shape _ _ _ _ hp
          exact ⟨fun _ => ⟨hsh.2.1, hsh.2.2.1, hsh.2.2.2.1, hsh.2.2.2.2⟩,
            fun hne => absurd hsh.1 hne⟩
        · next hytrap =>
          simp only [except_bind_ok] at hp
          obtain ⟨d4, h5, hp⟩ := hp
          split at hp
          · simp only [except_bind_ok, except_throw_ok, false_and, exists_false] at hp
          · simp only [except_bind_ok] at hp
            obtain ⟨u3, -, d5, h6, hp⟩ := hp
            split at hp
            · simp only [except_bind_ok, except_throw_ok, false_and, exists_false] at hp
            · simp only [except_bind_ok] at hp
              obtain ⟨u4, -, d6, h7, hp⟩ := hp
              split at hp
              · simp only [except_bind_ok, except_throw_ok, false_and, exists_false] at hp
              · simp only [except_bind_ok] at hp
                obtain ⟨u5, -, d7, h8, hfin⟩ := hp
                rw [except_pure_ok] at hfin
                subst hfin
                exact ⟨fun hmt' => absurd hmt' hytrap, fun _ => rfl⟩
      · simp only [except_bind_ok, except_throw_ok, false_and, exists_false] at hp

/-- C7: for every in-range `i64` value `n`, given sufficient buffer
space, `push_integer n` prepends the tag `0x02`, a correct (short-form)
BER length byte equal to the content length, and the minimal big-endian
two's-complement content of `n`: at least one byte, two's-complement
value `n`, and no redundant leading `0x00` (resp. `0xff`) byte whose
sign information the next byte already carries. -/
theorem claim_C7_push_integer_minimal (b : Buf) (n : Int)
    (hlo : -(2 ^ 63) ≤ n) (hhi : n < 2 ^ 63)
    (hsp : b.data.length + 10 ≤ BUFFER_SIZE) :
    b.push_integer n = .ok ⟨0x02 :: (i64content n).length :: (i64content n ++ b.data)⟩
    ∧ (i64content n).length < 128
    ∧ 1 ≤ (i64content n).length
    ∧ twosVal (i64content n) = n
    ∧ (∀ c0 c1 rest, i64content n = c0 :: c1 :: rest →
        ¬(c0 = 0 ∧ c1 < 128) ∧ ¬(c0 = 0xff ∧ 128 ≤ c1)) := by
  obtain ⟨h1, h8, hval, hmin⟩ := i64content_spec n hlo hhi
  refine ⟨?_, by omega, h1, hval, hmin⟩
  have hcl := i64content_length n
  have hp := push_integer_ok b n (by rw [intTLV_length]; omega)
  rw [hp, intTLV_eq, ← i64content_length]
  simp

theorem claim_C7_witness :
    Buf.default.push_integer 256 = .ok ⟨[0x02, 2, 1, 0]⟩
    ∧ i64content (-(2 ^ 63)) = [128, 0, 0, 0, 0, 0, 0, 0]
    ∧ i64content (-1) = [255]
    ∧ i64content 0 = [0]
    ∧ i64content 1 = [1]
    ∧ i64content 127 = [127]
    ∧ i64content 128 = [0, 128]
    ∧ i64content 255 = [0, 255]
    ∧ i64content 256 = [1, 0]
    ∧ i64content (2 ^ 63 - 1) = [127, 255, 255, 255, 255, 255, 255, 255] := by
  refine ⟨?_, by decide, by decide, by decide, by decide, by decide, by decide,
    by decide, by decide, by decide⟩
  have h := (claim_C7_push_integer_minimal Buf.default 256 (by norm_num) (by norm_num)
    (by decide)).1
  rw [h]
  decide

theorem claim_C9_witness :
    from_bytes exTrapFrame = .ok exTrapPdu
    ∧ (exTrapPdu.req_id = 0 ∧ exTrapPdu.error_status = 0 ∧ exTrapPdu.error_index = 0
        ∧ exTrapPdu.v1_trap_info.isSome = true)
    ∧ from_bytes exRespFrame = .ok exRespDecoded
    ∧ exRespDecoded.v1_trap_info = none :=
  ⟨by decide,
   (claim_C9_trap_decode_shape exTrapFrame exTrapPdu (by decide)).1 (by decide),
   by decide,
   (claim_C9_trap_decode_shape exRespFrame exRespDecoded (by decide)).2 (by decide)⟩

end Snmp
